import Mathlib

/-!
CI rules of the image explorer (`runtime/ci/rules.go`).

A shallow embedding of the rule gate: the `RuleStatus` enumeration and its
rendering, the generic rule (`GenericCiRule`) with its three accessors, and the
catalog built by `loadCiRules`.

Conventions of the embedding

* `RuleStatus` is a Go `int`; it is embedded as `Int`.
* `*image.AnalysisResult` is a pointer; it is embedded as `Option AnalysisResult`
  (`none` is the nil pointer).  A Go call that panics returns `none`, a call that
  returns normally returns `some` of its results.
* Go `error` values are only ever rendered with `%v`; an error is embedded as the
  text of its `Error()` method.
* `uint64` values are embedded as `Nat`; the only operations on them are the
  comparison `>` and the decimal rendering of `%v`, neither of which can overflow.
* `float64` values are embedded bit-exactly (`Float64`), with the IEEE 754
  comparisons of the Go language.
* The third-party functions the file calls (`strconv.ParseFloat`,
  `humanize.ParseBytes`, the `%v` rendering of a `float64`, the `aurora` styling
  functions) are fields of the structures `Library` and `Aurora`: every theorem
  holds for whatever these functions compute.
-/

namespace CiRules

/-! ## Go values -/

/-- An IEEE 754 binary64 value, as its three bit fields. -/
structure Float64 where
  sign : Bool
  exponent : Fin 2048
  mantissa : Fin 4503599627370496
deriving DecidableEq

namespace Float64

/-- Not-a-number: all exponent bits set and a non-zero mantissa. -/
def isNaN (x : Float64) : Bool :=
  x.exponent.val == 2047 && x.mantissa.val != 0

/-- The position of a non-NaN value on the extended real line, as an integer
that is strictly monotone in the value (`-0` and `+0` share the position 0). -/
def position (x : Float64) : Int :=
  let magnitude : Int := (x.exponent.val * 4503599627370496 + x.mantissa.val : Nat)
  if x.sign then -magnitude else magnitude

/-- Go `x < y` on `float64`: false as soon as one operand is NaN. -/
def lt (x y : Float64) : Bool :=
  !x.isNaN && !y.isNaN && decide (x.position < y.position)

/-- Go `x > y` on `float64`. -/
def gt (x y : Float64) : Bool :=
  lt y x

/-- Go `x == y` on `float64`: false as soon as one operand is NaN, and `-0 == +0`. -/
def eq (x y : Float64) : Bool :=
  !x.isNaN && !y.isNaN && decide (x.position = y.position)

/-- The absolute value of a finite `float64`, multiplied by `2 ^ 1074`: the
mantissa of a subnormal, and the mantissa with its hidden bit shifted by the
exponent otherwise. -/
def scaledMagnitude (x : Float64) : Nat :=
  if x.exponent.val = 0 then x.mantissa.val
  else (4503599627370496 + x.mantissa.val) * 2 ^ (x.exponent.val - 1)

/-- The value of a finite `float64`, multiplied by `2 ^ 1074`. -/
def scaledValue (x : Float64) : Int :=
  if x.sign then -(x.scaledMagnitude : Int) else (x.scaledMagnitude : Int)

end Float64

/-- What the file uses of `strconv`, `go-humanize` and `fmt`'s rendering of
floating-point values.  An error is the text of its `Error()` method. -/
structure Library where
  /-- Models `strconv.ParseFloat(s, 64)`. -/
  ParseFloat : String → Except String Float64
  /-- Models `humanize.ParseBytes(s)`, whose result is a `uint64`. -/
  ParseBytes : String → Except String Nat
  /-- Models the `%v` rendering of a `float64`. -/
  formatFloat : Float64 → String

/-- One step of `fmt.Sprintf` over the characters of the format: `%v` and `%s`
are replaced by the next operand (already rendered), `%%` by a percent sign, and
every other character is copied.  A verb without operand is rendered as Go
renders it, `%!v(MISSING)`. -/
def sprintfAux : List Char → List String → List Char
  | [], _ => []
  | '%' :: 'v' :: rest, a :: args => a.data ++ sprintfAux rest args
  | '%' :: 'v' :: rest, [] => "%!v(MISSING)".data ++ sprintfAux rest []
  | '%' :: 's' :: rest, a :: args => a.data ++ sprintfAux rest args
  | '%' :: 's' :: rest, [] => "%!s(MISSING)".data ++ sprintfAux rest []
  | '%' :: '%' :: rest, args => '%' :: sprintfAux rest args
  | c :: rest, args => c :: sprintfAux rest args

/-- Models `fmt.Sprintf(format, operands...)` for the verbs the file uses, each
operand given by its `%v` rendering, and for calls with no operand left over. -/
def Sprintf (format : String) (args : List String) : String :=
  ⟨sprintfAux format.data args⟩

/-! ## The analysis result -/

/-- Modelled from the spec: the declaration of `image.AnalysisResult` lives in
the `image` package; the three fields the rules read are `Efficiency` (float),
`WastedBytes` (unsigned integer) and `WastedUserPercent` (float). -/
structure AnalysisResult where
  Efficiency : Float64
  WastedBytes : Nat
  WastedUserPercent : Float64

/-! ## Rule status -/

/-- Go `type RuleStatus int`. -/
abbrev RuleStatus := Int

def RuleUnknown : RuleStatus := 0
def RulePassed : RuleStatus := 1
def RuleFailed : RuleStatus := 2
def RuleWarning : RuleStatus := 3
def RuleDisabled : RuleStatus := 4

/-- A styled value of the `aurora` package: the styles applied so far and the
text they apply to. -/
structure AuroraValue where
  bold : Bool
  inverse : Bool
  foreground : Option Nat
  text : String
deriving DecidableEq

/-- What the file uses of the `aurora` package. -/
structure Aurora (V : Type) where
  /-- Models `aurora.Red(arg)` on a string. -/
  Red : String → V
  /-- Models `aurora.Blue(arg)` on a string. -/
  Blue : String → V
  /-- Models `aurora.Inverse(arg)` on a string. -/
  InverseText : String → V
  /-- Models `aurora.Inverse(arg)` on a styled value. -/
  Inverse : V → V
  /-- Models `aurora.Bold(arg)` on a styled value. -/
  Bold : V → V
  /-- Models `Value.String()`. -/
  String : V → String

/-- Go `func (status RuleStatus) String() string`. -/
def RuleStatus.String {V : Type} (au : Aurora V) (status : RuleStatus) : String :=
  if status = RulePassed then "PASS"
  else if status = RuleFailed then au.String (au.Bold (au.Inverse (au.Red "FAIL")))
  else if status = RuleWarning then au.String (au.Blue "WARN")
  else if status = RuleDisabled then au.String (au.Blue "SKIP")
  else au.String (au.InverseText "Unknown")

/-! ## Rules -/

/-- Go `type GenericCiRule struct`. -/
structure GenericCiRule where
  key : String
  configValue : String
  evaluator : Option AnalysisResult → String → Option (RuleStatus × String)

/-- Go `func newGenericCiRule`. -/
def newGenericCiRule (key : String) (configValue : String)
    (evaluator : Option AnalysisResult → String → Option (RuleStatus × String)) :
    GenericCiRule :=
  { key := key, configValue := configValue, evaluator := evaluator }

/-- Go `func (rule *GenericCiRule) Key() string`. -/
def GenericCiRule.Key (rule : GenericCiRule) : String :=
  rule.key

/-- Go `func (rule *GenericCiRule) Configuration() string`. -/
def GenericCiRule.Configuration (rule : GenericCiRule) : String :=
  rule.configValue

/-- Go `func (rule *GenericCiRule) Evaluate(result *image.AnalysisResult)`. -/
def GenericCiRule.Evaluate (rule : GenericCiRule) (result : Option AnalysisResult) :
    Option (RuleStatus × String) :=
  rule.evaluator result rule.configValue

/-- The evaluator closure of the `lowestEfficiency` rule. -/
def lowestEfficiencyEvaluator (lib : Library) (analysis : Option AnalysisResult)
    (value : String) : Option (RuleStatus × String) :=
  match lib.ParseFloat value with
  | .error err =>
    some (RuleFailed, Sprintf "invalid config value ('%v'): %v" [value, err])
  | .ok lowestEfficiency =>
    match analysis with
    | none => none
    | some analysis =>
      if Float64.gt lowestEfficiency analysis.Efficiency then
        some (RuleFailed,
          Sprintf "image efficiency is too low (efficiency=%v < threshold=%v)"
            [lib.formatFloat analysis.Efficiency, lib.formatFloat lowestEfficiency])
      else
        some (RulePassed, "")

/-- The evaluator closure of the `highestWastedBytes` rule. -/
def highestWastedBytesEvaluator (lib : Library) (analysis : Option AnalysisResult)
    (value : String) : Option (RuleStatus × String) :=
  match lib.ParseBytes value with
  | .error err =>
    some (RuleFailed, Sprintf "invalid config value ('%v'): %v" [value, err])
  | .ok highestWastedBytes =>
    match analysis with
    | none => none
    | some analysis =>
      if analysis.WastedBytes > highestWastedBytes then
        some (RuleFailed,
          Sprintf "too many bytes wasted (wasted-bytes=%v > threshold=%v)"
            [toString analysis.WastedBytes, toString highestWastedBytes])
      else
        some (RulePassed, "")

/-- The evaluator closure of the `highestUserWastedPercent` rule. -/
def highestUserWastedPercentEvaluator (lib : Library) (analysis : Option AnalysisResult)
    (value : String) : Option (RuleStatus × String) :=
  match lib.ParseFloat value with
  | .error err =>
    some (RuleFailed, Sprintf "invalid config value ('%v'): %v" [value, err])
  | .ok highestUserWastedPercent =>
    match analysis with
    | none => none
    | some analysis =>
      if Float64.lt highestUserWastedPercent analysis.WastedUserPercent then
        some (RuleFailed,
          Sprintf
            "too many bytes wasted, relative to the user bytes added (%%-user-wasted-bytes=%v > threshold=%v)"
            [lib.formatFloat analysis.WastedUserPercent,
             lib.formatFloat highestUserWastedPercent])
      else
        some (RulePassed, "")

/-- Go `func loadCiRules(config *viper.Viper) []Rule`; the configuration is
given by its `GetString` method. -/
def loadCiRules (lib : Library) (GetString : String → String) : List GenericCiRule :=
  let rules : List GenericCiRule := []
  let ruleKey := "lowestEfficiency"
  let rules := rules ++ [newGenericCiRule ruleKey
    (GetString (Sprintf "rules.%s" [ruleKey])) (lowestEfficiencyEvaluator lib)]
  let ruleKey := "highestWastedBytes"
  let rules := rules ++ [newGenericCiRule ruleKey
    (GetString (Sprintf "rules.%s" [ruleKey])) (highestWastedBytesEvaluator lib)]
  let ruleKey := "highestUserWastedPercent"
  let rules := rules ++ [newGenericCiRule ruleKey
    (GetString (Sprintf "rules.%s" [ruleKey])) (highestUserWastedPercentEvaluator lib)]
  rules

/-! ## Evaluation in memory

The definitions above read a rule as a value.  In Go a rule is an object behind a
pointer, `Evaluate` has a pointer receiver, and the function value stored in the
rule receives a pointer to the analysis result: a call can assign to the fields
of the receiver and to the analysis result.  The definitions of this section
translate the same source lines with that memory passed through every call, so
that what a call leaves in memory is a result of the translation and can be
stated.
-/

/-- The memory a call of `Evaluate` can read and assign to: the two string
fields of the receiver `*rule`, and the analysis result the argument points to
(`none` when the argument is the nil pointer). -/
structure Memory where
  key : String
  configValue : String
  analysis : Option AnalysisResult

/-- A Go function value of type
`func(*image.AnalysisResult, string) (RuleStatus, string)`, run in memory: from
the memory before the call and the string argument to the memory after the call
and the results (`none` when the call panics). -/
abbrev Closure := Memory → String → Memory × Option (RuleStatus × String)

/-- The function literal of lines 82-91, statement by statement: no statement
is an assignment to memory. -/
def lowestEfficiencyClosure (lib : Library) : Closure := fun mem value =>
  match lib.ParseFloat value with
  | .error err =>
    (mem, some (RuleFailed, Sprintf "invalid config value ('%v'): %v" [value, err]))
  | .ok lowestEfficiency =>
    match mem.analysis with
    | none => (mem, none)
    | some analysis =>
      if Float64.gt lowestEfficiency analysis.Efficiency then
        (mem, some (RuleFailed,
          Sprintf "image efficiency is too low (efficiency=%v < threshold=%v)"
            [lib.formatFloat analysis.Efficiency, lib.formatFloat lowestEfficiency]))
      else
        (mem, some (RulePassed, ""))

/-- The function literal of lines 98-107, statement by statement. -/
def highestWastedBytesClosure (lib : Library) : Closure := fun mem value =>
  match lib.ParseBytes value with
  | .error err =>
    (mem, some (RuleFailed, Sprintf "invalid config value ('%v'): %v" [value, err]))
  | .ok highestWastedBytes =>
    match mem.analysis with
    | none => (mem, none)
    | some analysis =>
      if analysis.WastedBytes > highestWastedBytes then
        (mem, some (RuleFailed,
          Sprintf "too many bytes wasted (wasted-bytes=%v > threshold=%v)"
            [toString analysis.WastedBytes, toString highestWastedBytes]))
      else
        (mem, some (RulePassed, ""))

/-- The function literal of lines 114-124, statement by statement. -/
def highestUserWastedPercentClosure (lib : Library) : Closure := fun mem value =>
  match lib.ParseFloat value with
  | .error err =>
    (mem, some (RuleFailed, Sprintf "invalid config value ('%v'): %v" [value, err]))
  | .ok highestUserWastedPercent =>
    match mem.analysis with
    | none => (mem, none)
    | some analysis =>
      if Float64.lt highestUserWastedPercent analysis.WastedUserPercent then
        (mem, some (RuleFailed,
          Sprintf
            "too many bytes wasted, relative to the user bytes added (%%-user-wasted-bytes=%v > threshold=%v)"
            [lib.formatFloat analysis.WastedUserPercent,
             lib.formatFloat highestUserWastedPercent]))
      else
        (mem, some (RulePassed, ""))

/-- A rule as an object: the values `newGenericCiRule` stores in its two string
fields, and its function value. -/
structure RuleObject where
  key : String
  configValue : String
  evaluator : Closure

/-- The memory in which a rule object is evaluated on an analysis pointer, before
the first call. -/
def RuleObject.memory (rule : RuleObject) (result : Option AnalysisResult) : Memory :=
  { key := rule.key, configValue := rule.configValue, analysis := result }

/-- The rule object read as a value: its evaluator is the function value run in
the memory of the rule, of which only the results are kept. -/
def RuleObject.toRule (rule : RuleObject) : GenericCiRule :=
  newGenericCiRule rule.key rule.configValue
    (fun result value => (rule.evaluator (rule.memory result) value).2)

/-- Go `func (rule *GenericCiRule) Evaluate`, run in memory: the method reads the
field `configValue` of the receiver and calls the function value of the rule. -/
def EvaluateInMemory (evaluator : Closure) (mem : Memory) :
    Memory × Option (RuleStatus × String) :=
  evaluator mem mem.configValue

/-- Successive calls of `Evaluate` on one receiver with one argument, each run in
the memory the previous one left: the memory after the last call and the results
of the calls, in call order. -/
def evaluateRepeatedly (evaluator : Closure) : Memory → Nat →
    Memory × List (Option (RuleStatus × String))
  | mem, 0 => (mem, [])
  | mem, n + 1 =>
    let call := EvaluateInMemory evaluator mem
    let rest := evaluateRepeatedly evaluator call.1 n
    (rest.1, call.2 :: rest.2)

/-- Go `func loadCiRules`, with the rules as objects. -/
def loadCiRuleObjects (lib : Library) (GetString : String → String) : List RuleObject :=
  let rules : List RuleObject := []
  let ruleKey := "lowestEfficiency"
  let rules := rules ++ [RuleObject.mk ruleKey
    (GetString (Sprintf "rules.%s" [ruleKey])) (lowestEfficiencyClosure lib)]
  let ruleKey := "highestWastedBytes"
  let rules := rules ++ [RuleObject.mk ruleKey
    (GetString (Sprintf "rules.%s" [ruleKey])) (highestWastedBytesClosure lib)]
  let ruleKey := "highestUserWastedPercent"
  let rules := rules ++ [RuleObject.mk ruleKey
    (GetString (Sprintf "rules.%s" [ruleKey])) (highestUserWastedPercentClosure lib)]
  rules

/-- A function value that is not in the catalog: it returns its string argument
as message and appends a character to the field `configValue` of the receiver. -/
def appendingClosure : Closure := fun mem value =>
  ({ mem with configValue := mem.configValue ++ "0" }, some (RulePassed, value))

/-! ## Concrete instances

The theorems below hold for every `Library`, every `Aurora` and every
configuration; the instances of this section are the ones they are evaluated at.
-/

/-- The numbers of the escape sequence of a styled value, in the order the
`aurora` package writes them: bold `1`, inverse `7`, foreground colour `3x`. -/
def AuroraValue.Nos (v : AuroraValue) : String :=
  ";".intercalate
    ((if v.bold then ["1"] else []) ++ (if v.inverse then ["7"] else []) ++
      (match v.foreground with
       | some c => [String.mk ['3', Nat.digitChar c]]
       | none => []))

/-- The rendering of a styled value, as the `aurora` package documents it: a
value with a colour or a format is preceded by its escape sequence and
terminated with `\x1b[0m`; a value without any is rendered as it is. -/
def AuroraValue.String (v : AuroraValue) : String :=
  if v.bold || v.inverse || v.foreground.isSome then
    "\x1b[" ++ v.Nos ++ "m" ++ v.text ++ "\x1b[0m"
  else
    v.text

/-- The `aurora` package on ANSI terminals; red is colour 1, blue is colour 4. -/
def ansiAurora : Aurora AuroraValue where
  Red := fun s => { bold := false, inverse := false, foreground := some 1, text := s }
  Blue := fun s => { bold := false, inverse := false, foreground := some 4, text := s }
  InverseText := fun s => { bold := false, inverse := true, foreground := none, text := s }
  Inverse := fun v => { v with inverse := true }
  Bold := fun v => { v with bold := true }
  String := AuroraValue.String

/-- The `float64` nearest to 0.9. -/
def float0_9 : Float64 := ⟨false, 1022, 3602879701896397⟩
/-- The `float64` nearest to 0.95. -/
def float0_95 : Float64 := ⟨false, 1022, 4053239664633446⟩
/-- The `float64` nearest to 0.85. -/
def float0_85 : Float64 := ⟨false, 1022, 3152519739159347⟩
/-- The `float64` 20. -/
def float20 : Float64 := ⟨false, 1027, 1125899906842624⟩
/-- The `float64` 25. -/
def float25 : Float64 := ⟨false, 1027, 2533274790395904⟩
/-- The NaN of Go's `math.NaN()`, bits `0x7FF8000000000001`. -/
def floatNaN : Float64 := ⟨false, 2047, 2251799813685249⟩

/-- A library instance defined on a handful of inputs, on which it agrees with
the Go packages: it accepts `0.9`, `20` and `NaN` as floats and `10MB` as a byte
size (10 000 000 bytes), and rejects every other string with the error text the
packages give for a string that is not a number. -/
def sampleLibrary : Library where
  ParseFloat := fun s =>
    if s = "0.9" then .ok float0_9
    else if s = "20" then .ok float20
    else if s = "NaN" then .ok floatNaN
    else .error ("strconv.ParseFloat: parsing \"" ++ s ++ "\": invalid syntax")
  ParseBytes := fun s =>
    if s = "10MB" then .ok 10000000
    else .error ("strconv.ParseFloat: parsing \"" ++ s ++ "\": invalid syntax")
  formatFloat := fun x =>
    if x = float0_9 then "0.9"
    else if x = float0_95 then "0.95"
    else if x = float0_85 then "0.85"
    else if x = float20 then "20"
    else if x = float25 then "25"
    else if x.isNaN then "NaN"
    else "0"

/-- A configuration that sets the three thresholds. -/
def sampleConfig : String → String := fun k =>
  if k = "rules.lowestEfficiency" then "0.9"
  else if k = "rules.highestWastedBytes" then "10MB"
  else if k = "rules.highestUserWastedPercent" then "20"
  else ""

/-- A configuration whose three thresholds are malformed. -/
def malformedConfig : String → String := fun k =>
  if k = "rules.lowestEfficiency" then "not-a-number"
  else if k = "rules.highestWastedBytes" then "10XB"
  else if k = "rules.highestUserWastedPercent" then "not-a-number"
  else ""

/-- A configuration whose two float thresholds are `NaN`. -/
def nanConfig : String → String := fun k =>
  if k = "rules.lowestEfficiency" then "NaN"
  else if k = "rules.highestUserWastedPercent" then "NaN"
  else ""

/-- A configuration that sets the byte threshold only, to the value
`sampleConfig` gives it. -/
def bytesOnlyConfig : String → String := fun k =>
  if k = "rules.highestWastedBytes" then "10MB" else ""

/-- A configuration without any key: `GetString` returns the empty string. -/
def emptyConfig : String → String := fun _ => ""

/-- An analysis result: efficiency 0.95, 15 MiB wasted, 25 % of the user bytes. -/
def sampleAnalysis : AnalysisResult :=
  { Efficiency := float0_95, WastedBytes := 15728640, WastedUserPercent := float25 }

/-! ## Auxiliary facts -/

/-! ### The comparisons of `float64` are the comparisons of the values -/

theorem scaled_lt_of_lt (e1 m1 e2 m2 : Nat) (h1 : m1 < 4503599627370496)
    (h2 : m2 < 4503599627370496)
    (h : e1 * 4503599627370496 + m1 < e2 * 4503599627370496 + m2) :
    (if e1 = 0 then m1 else (4503599627370496 + m1) * 2 ^ (e1 - 1)) <
      (if e2 = 0 then m2 else (4503599627370496 + m2) * 2 ^ (e2 - 1)) := by
  rcases Nat.lt_trichotomy e1 e2 with he | he | he
  · have he2 : e2 ≠ 0 := by omega
    rw [if_neg he2]
    have hp2 : 0 < 2 ^ (e2 - 1) := Nat.two_pow_pos _
    have hlow : 4503599627370496 * 2 ^ (e2 - 1) ≤ (4503599627370496 + m2) * 2 ^ (e2 - 1) :=
      Nat.mul_le_mul_right _ (by omega)
    by_cases he1 : e1 = 0
    · rw [if_pos he1]
      have : 4503599627370496 * 1 ≤ 4503599627370496 * 2 ^ (e2 - 1) :=
        Nat.mul_le_mul_left _ hp2
      omega
    · rw [if_neg he1]
      have hp1 : 0 < 2 ^ (e1 - 1) := Nat.two_pow_pos _
      have hup : (4503599627370496 + m1) * 2 ^ (e1 - 1) <
          (2 * 4503599627370496) * 2 ^ (e1 - 1) :=
        Nat.mul_lt_mul_of_pos_right (by omega) hp1
      have hpow : 2 * 2 ^ (e1 - 1) ≤ 2 ^ (e2 - 1) := by
        have : 2 * 2 ^ (e1 - 1) = 2 ^ e1 := by
          rw [← Nat.pow_succ']
          congr 1
          omega
        rw [this]
        exact Nat.pow_le_pow_right (by norm_num) (by omega)
      have hmid : (2 * 4503599627370496) * 2 ^ (e1 - 1) ≤ 4503599627370496 * 2 ^ (e2 - 1) := by
        calc (2 * 4503599627370496) * 2 ^ (e1 - 1)
            = 4503599627370496 * (2 * 2 ^ (e1 - 1)) := by ring
          _ ≤ 4503599627370496 * 2 ^ (e2 - 1) := Nat.mul_le_mul_left _ hpow
      omega
  · subst he
    by_cases he1 : e1 = 0
    · rw [if_pos he1, if_pos he1]
      omega
    · rw [if_neg he1, if_neg he1]
      exact Nat.mul_lt_mul_of_pos_right (by omega) (Nat.two_pow_pos _)
  · exfalso
    have : (e2 + 1) * 4503599627370496 ≤ e1 * 4503599627370496 :=
      Nat.mul_le_mul_right _ he
    omega

theorem Float64.scaledMagnitude_lt_iff (x y : Float64) :
    x.scaledMagnitude < y.scaledMagnitude ↔
      x.exponent.val * 4503599627370496 + x.mantissa.val <
        y.exponent.val * 4503599627370496 + y.mantissa.val := by
  constructor
  · intro h
    by_contra hn
    rcases Nat.lt_or_eq_of_le (Nat.le_of_not_lt hn) with hlt | heq
    · have := scaled_lt_of_lt _ _ _ _ y.mantissa.isLt x.mantissa.isLt hlt
      simp only [Float64.scaledMagnitude] at h
      omega
    · have hm : y.mantissa.val = x.mantissa.val ∧ y.exponent.val = x.exponent.val := by
        have := x.mantissa.isLt
        have := y.mantissa.isLt
        constructor <;> omega
      simp only [Float64.scaledMagnitude, hm.1, hm.2] at h
      omega
  · intro h
    exact scaled_lt_of_lt _ _ _ _ x.mantissa.isLt y.mantissa.isLt h

theorem Float64.scaledMagnitude_eq_zero_iff (x : Float64) :
    x.scaledMagnitude = 0 ↔
      x.exponent.val * 4503599627370496 + x.mantissa.val = 0 := by
  unfold Float64.scaledMagnitude
  by_cases he : x.exponent.val = 0
  · rw [if_pos he, he]
    omega
  · rw [if_neg he]
    have hp : 0 < (4503599627370496 + x.mantissa.val) * 2 ^ (x.exponent.val - 1) :=
      Nat.mul_pos (by omega) (Nat.two_pow_pos _)
    have : 0 < x.exponent.val * 4503599627370496 := Nat.mul_pos (by omega) (by norm_num)
    omega

/-- The comparison `<` on the bit fields is the comparison of the values: for
operands that are not NaN, `x < y` holds exactly when the value of `x` is below
the value of `y` (both multiplied by `2 ^ 1074`; the formula of the value extends
to the infinities, which it places beyond every finite value). -/
theorem Float64.lt_iff_scaledValue_lt (x y : Float64) (hx : x.isNaN = false)
    (hy : y.isNaN = false) :
    Float64.lt x y = true ↔ x.scaledValue < y.scaledValue := by
  have hxy := Float64.scaledMagnitude_lt_iff x y
  have hyx := Float64.scaledMagnitude_lt_iff y x
  have hx0 := Float64.scaledMagnitude_eq_zero_iff x
  have hy0 := Float64.scaledMagnitude_eq_zero_iff y
  simp only [Float64.lt, hx, hy, Bool.not_false, Bool.true_and, decide_eq_true_eq,
    Float64.position, Float64.scaledValue]
  cases x.sign <;> cases y.sign <;> simp only [if_true, if_false, Bool.false_eq_true] <;> omega

/-- The comparison `==` on the bit fields is the equality of the values, for
operands that are not NaN. -/
theorem Float64.eq_iff_scaledValue_eq (x y : Float64) (hx : x.isNaN = false)
    (hy : y.isNaN = false) :
    Float64.eq x y = true ↔ x.scaledValue = y.scaledValue := by
  have hxy := Float64.scaledMagnitude_lt_iff x y
  have hyx := Float64.scaledMagnitude_lt_iff y x
  have hx0 := Float64.scaledMagnitude_eq_zero_iff x
  have hy0 := Float64.scaledMagnitude_eq_zero_iff y
  simp only [Float64.eq, hx, hy, Bool.not_false, Bool.true_and, decide_eq_true_eq,
    Float64.position, Float64.scaledValue]
  cases x.sign <;> cases y.sign <;> simp only [if_true, if_false, Bool.false_eq_true] <;> omega

/-! ### Strings and the catalog -/

theorem Float64.eq_not_gt (x y : Float64) (h : Float64.eq x y = true) :
    Float64.gt x y = false := by
  simp only [Float64.eq, Bool.and_eq_true, decide_eq_true_eq] at h
  simp [Float64.gt, Float64.lt, h.2]

theorem Float64.eq_not_lt (x y : Float64) (h : Float64.eq x y = true) :
    Float64.lt x y = false := by
  simp only [Float64.eq, Bool.and_eq_true, decide_eq_true_eq] at h
  simp [Float64.lt, h.2]

theorem sprintf_key_lowestEfficiency :
    Sprintf "rules.%s" ["lowestEfficiency"] = "rules.lowestEfficiency" := by
  decide

theorem sprintf_key_highestWastedBytes :
    Sprintf "rules.%s" ["highestWastedBytes"] = "rules.highestWastedBytes" := by
  decide

theorem sprintf_key_highestUserWastedPercent :
    Sprintf "rules.%s" ["highestUserWastedPercent"] = "rules.highestUserWastedPercent" := by
  decide

theorem key_newGenericCiRule (key configValue : String)
    (evaluator : Option AnalysisResult → String → Option (RuleStatus × String)) :
    (newGenericCiRule key configValue evaluator).Key = key :=
  rfl

/-- The catalog, with the assignments to `rules` and `ruleKey` carried out. -/
theorem loadCiRules_eq (lib : Library) (GetString : String → String) :
    loadCiRules lib GetString =
      [newGenericCiRule "lowestEfficiency" (GetString "rules.lowestEfficiency")
          (lowestEfficiencyEvaluator lib),
       newGenericCiRule "highestWastedBytes" (GetString "rules.highestWastedBytes")
          (highestWastedBytesEvaluator lib),
       newGenericCiRule "highestUserWastedPercent"
          (GetString "rules.highestUserWastedPercent")
          (highestUserWastedPercentEvaluator lib)] := by
  simp only [loadCiRules, sprintf_key_lowestEfficiency, sprintf_key_highestWastedBytes,
    sprintf_key_highestUserWastedPercent, List.nil_append, List.cons_append]

theorem string_ne_empty_of_data {s : String} (h : s.data ≠ []) : s ≠ "" := by
  intro hs
  exact h (by rw [hs])

theorem invalidConfig_ne_empty (value err : String) :
    Sprintf "invalid config value ('%v'): %v" [value, err] ≠ "" := by
  apply string_ne_empty_of_data
  simp [Sprintf, sprintfAux]

theorem efficiencyMessage_ne_empty (a b : String) :
    Sprintf "image efficiency is too low (efficiency=%v < threshold=%v)" [a, b] ≠ "" := by
  apply string_ne_empty_of_data
  simp [Sprintf, sprintfAux]

theorem wastedBytesMessage_ne_empty (a b : String) :
    Sprintf "too many bytes wasted (wasted-bytes=%v > threshold=%v)" [a, b] ≠ "" := by
  apply string_ne_empty_of_data
  simp [Sprintf, sprintfAux]

theorem userWastedMessage_ne_empty (a b : String) :
    Sprintf
      "too many bytes wasted, relative to the user bytes added (%%-user-wasted-bytes=%v > threshold=%v)"
      [a, b] ≠ "" := by
  apply string_ne_empty_of_data
  simp [Sprintf, sprintfAux]

/-- Membership in the catalog, rule by rule. -/
theorem mem_loadCiRules (lib : Library) (GetString : String → String) (rule : GenericCiRule) :
    rule ∈ loadCiRules lib GetString ↔
      rule = newGenericCiRule "lowestEfficiency" (GetString "rules.lowestEfficiency")
          (lowestEfficiencyEvaluator lib) ∨
      rule = newGenericCiRule "highestWastedBytes" (GetString "rules.highestWastedBytes")
          (highestWastedBytesEvaluator lib) ∨
      rule = newGenericCiRule "highestUserWastedPercent"
          (GetString "rules.highestUserWastedPercent")
          (highestUserWastedPercentEvaluator lib) := by
  rw [loadCiRules_eq]
  simp

/-! ### The branches of the three evaluators -/

theorem lowestEfficiencyEvaluator_error (lib : Library) (analysis : Option AnalysisResult)
    (value err : String) (h : lib.ParseFloat value = .error err) :
    lowestEfficiencyEvaluator lib analysis value =
      some (RuleFailed, Sprintf "invalid config value ('%v'): %v" [value, err]) := by
  simp only [lowestEfficiencyEvaluator, h]

theorem lowestEfficiencyEvaluator_fail (lib : Library) (analysis : AnalysisResult)
    (value : String) (T : Float64) (h : lib.ParseFloat value = .ok T)
    (hgt : Float64.gt T analysis.Efficiency = true) :
    lowestEfficiencyEvaluator lib (some analysis) value =
      some (RuleFailed,
        Sprintf "image efficiency is too low (efficiency=%v < threshold=%v)"
          [lib.formatFloat analysis.Efficiency, lib.formatFloat T]) := by
  simp only [lowestEfficiencyEvaluator, h, hgt, if_true]

theorem lowestEfficiencyEvaluator_pass (lib : Library) (analysis : AnalysisResult)
    (value : String) (T : Float64) (h : lib.ParseFloat value = .ok T)
    (hgt : Float64.gt T analysis.Efficiency = false) :
    lowestEfficiencyEvaluator lib (some analysis) value = some (RulePassed, "") := by
  simp [lowestEfficiencyEvaluator, h, hgt]

theorem highestWastedBytesEvaluator_error (lib : Library) (analysis : Option AnalysisResult)
    (value err : String) (h : lib.ParseBytes value = .error err) :
    highestWastedBytesEvaluator lib analysis value =
      some (RuleFailed, Sprintf "invalid config value ('%v'): %v" [value, err]) := by
  simp only [highestWastedBytesEvaluator, h]

theorem highestWastedBytesEvaluator_fail (lib : Library) (analysis : AnalysisResult)
    (value : String) (W : Nat) (h : lib.ParseBytes value = .ok W)
    (hgt : analysis.WastedBytes > W) :
    highestWastedBytesEvaluator lib (some analysis) value =
      some (RuleFailed,
        Sprintf "too many bytes wasted (wasted-bytes=%v > threshold=%v)"
          [toString analysis.WastedBytes, toString W]) := by
  simp only [highestWastedBytesEvaluator, h, if_pos hgt]

theorem highestWastedBytesEvaluator_pass (lib : Library) (analysis : AnalysisResult)
    (value : String) (W : Nat) (h : lib.ParseBytes value = .ok W)
    (hgt : ¬ analysis.WastedBytes > W) :
    highestWastedBytesEvaluator lib (some analysis) value = some (RulePassed, "") := by
  simp only [highestWastedBytesEvaluator, h, if_neg hgt]

theorem highestUserWastedPercentEvaluator_error (lib : Library)
    (analysis : Option AnalysisResult) (value err : String)
    (h : lib.ParseFloat value = .error err) :
    highestUserWastedPercentEvaluator lib analysis value =
      some (RuleFailed, Sprintf "invalid config value ('%v'): %v" [value, err]) := by
  simp only [highestUserWastedPercentEvaluator, h]

theorem highestUserWastedPercentEvaluator_fail (lib : Library) (analysis : AnalysisResult)
    (value : String) (P : Float64) (h : lib.ParseFloat value = .ok P)
    (hlt : Float64.lt P analysis.WastedUserPercent = true) :
    highestUserWastedPercentEvaluator lib (some analysis) value =
      some (RuleFailed,
        Sprintf
          "too many bytes wasted, relative to the user bytes added (%%-user-wasted-bytes=%v > threshold=%v)"
          [lib.formatFloat analysis.WastedUserPercent, lib.formatFloat P]) := by
  simp only [highestUserWastedPercentEvaluator, h, hlt, if_true]

theorem highestUserWastedPercentEvaluator_pass (lib : Library) (analysis : AnalysisResult)
    (value : String) (P : Float64) (h : lib.ParseFloat value = .ok P)
    (hlt : Float64.lt P analysis.WastedUserPercent = false) :
    highestUserWastedPercentEvaluator lib (some analysis) value = some (RulePassed, "") := by
  simp [highestUserWastedPercentEvaluator, h, hlt]

theorem status_out_of_range (n : Int) (h : n = 0 ∨ n < 0 ∨ n > 4) :
    n ≠ 1 ∧ n ≠ 2 ∧ n ≠ 3 ∧ n ≠ 4 := by
  omega

theorem ruleFailed_ne_rulePassed : RuleFailed ≠ RulePassed := by decide

theorem ruleFailed_ne_ruleUnknown : RuleFailed ≠ RuleUnknown := by decide

theorem rulePassed_ne_ruleUnknown : RulePassed ≠ RuleUnknown := by decide

/-! ## The three threshold rules -/

/-- C1. The `highestWastedBytes` rule of the catalog: when its configuration
value parses to the byte count `W`, then on every analysis result the rule
returns normally, with status Failed if and only if `WastedBytes > W` and with
status Passed otherwise; `WastedBytes = W` passes. -/
theorem highestWastedBytes_failed_iff (lib : Library) (GetString : String → String) :
    (∃ rule ∈ loadCiRules lib GetString, rule.Key = "highestWastedBytes") ∧
    ∀ rule ∈ loadCiRules lib GetString, rule.Key = "highestWastedBytes" →
      ∀ (W : Nat), lib.ParseBytes rule.Configuration = .ok W →
      ∀ analysis : AnalysisResult,
        ∃ status message, rule.Evaluate (some analysis) = some (status, message) ∧
          (status = RuleFailed ↔ analysis.WastedBytes > W) ∧
          (¬ analysis.WastedBytes > W → status = RulePassed) ∧
          (analysis.WastedBytes = W → status = RulePassed) := by
  refine ⟨⟨_, (mem_loadCiRules lib GetString _).2 (Or.inr (Or.inl rfl)), rfl⟩, ?_⟩
  intro rule hmem hkey W hparse analysis
  rcases (mem_loadCiRules lib GetString rule).1 hmem with h | h | h <;> subst h
  · exact absurd (key_newGenericCiRule _ _ _ ▸ hkey) (by decide)
  · by_cases hgt : analysis.WastedBytes > W
    · exact ⟨RuleFailed, _, highestWastedBytesEvaluator_fail lib analysis _ W hparse hgt,
        ⟨fun _ => hgt, fun _ => rfl⟩, fun h => absurd hgt h, fun h => absurd hgt (by omega)⟩
    · exact ⟨RulePassed, _, highestWastedBytesEvaluator_pass lib analysis _ W hparse hgt,
        ⟨fun h => absurd h.symm ruleFailed_ne_rulePassed, fun h => absurd h hgt⟩,
        fun _ => rfl, fun _ => rfl⟩
  · exact absurd (key_newGenericCiRule _ _ _ ▸ hkey) (by decide)

/-- C1, evaluated: with the threshold `10MB` the rule fails an analysis with
15 728 640 wasted bytes and passes one with exactly 10 000 000. -/
theorem highestWastedBytes_failed_iff_witness :
    sampleLibrary.ParseBytes (sampleConfig "rules.highestWastedBytes") = .ok 10000000 ∧
    (∃ message,
      (newGenericCiRule "highestWastedBytes" (sampleConfig "rules.highestWastedBytes")
        (highestWastedBytesEvaluator sampleLibrary)).Evaluate (some sampleAnalysis) =
        some (RuleFailed, message)) ∧
    (∃ message,
      (newGenericCiRule "highestWastedBytes" (sampleConfig "rules.highestWastedBytes")
        (highestWastedBytesEvaluator sampleLibrary)).Evaluate
        (some { sampleAnalysis with WastedBytes := 10000000 }) =
        some (RulePassed, message)) := by
  have hmem := (mem_loadCiRules sampleLibrary sampleConfig _).2 (Or.inr (Or.inl rfl))
  refine ⟨rfl, ?_, ?_⟩
  · obtain ⟨status, message, heval, hiff, -, -⟩ :=
      (highestWastedBytes_failed_iff sampleLibrary sampleConfig).2 _ hmem rfl 10000000 rfl
        sampleAnalysis
    exact ⟨message, by rw [heval, hiff.2 (by decide)]⟩
  · obtain ⟨status, message, heval, -, -, heq⟩ :=
      (highestWastedBytes_failed_iff sampleLibrary sampleConfig).2 _ hmem rfl 10000000 rfl
        { sampleAnalysis with WastedBytes := 10000000 }
    exact ⟨message, by rw [heval, heq rfl]⟩

/-- C2. The `lowestEfficiency` rule of the catalog: when its configuration value
parses to the number `T`, then on every analysis result the rule returns
normally, with status Failed if and only if `T > Efficiency` (Go comparison of
`float64`) and with status Passed otherwise; `T == Efficiency` passes. -/
theorem lowestEfficiency_failed_iff (lib : Library) (GetString : String → String) :
    (∃ rule ∈ loadCiRules lib GetString, rule.Key = "lowestEfficiency") ∧
    ∀ rule ∈ loadCiRules lib GetString, rule.Key = "lowestEfficiency" →
      ∀ (T : Float64), lib.ParseFloat rule.Configuration = .ok T →
      ∀ analysis : AnalysisResult,
        ∃ status message, rule.Evaluate (some analysis) = some (status, message) ∧
          (status = RuleFailed ↔ Float64.gt T analysis.Efficiency = true) ∧
          (¬ Float64.gt T analysis.Efficiency = true → status = RulePassed) ∧
          (Float64.eq T analysis.Efficiency = true → status = RulePassed) := by
  refine ⟨⟨_, (mem_loadCiRules lib GetString _).2 (Or.inl rfl), rfl⟩, ?_⟩
  intro rule hmem hkey T hparse analysis
  rcases (mem_loadCiRules lib GetString rule).1 hmem with h | h | h <;> subst h
  · cases hgt : Float64.gt T analysis.Efficiency
    · exact ⟨RulePassed, _, lowestEfficiencyEvaluator_pass lib analysis _ T hparse hgt,
        ⟨fun h => absurd h.symm ruleFailed_ne_rulePassed, fun h => absurd h (by simp)⟩,
        fun _ => rfl, fun _ => rfl⟩
    · refine ⟨RuleFailed, _, lowestEfficiencyEvaluator_fail lib analysis _ T hparse hgt,
        ⟨fun _ => rfl, fun _ => rfl⟩, fun h => absurd rfl h, fun h => ?_⟩
      rw [Float64.eq_not_gt _ _ h] at hgt
      exact absurd hgt (by simp)
  · exact absurd (key_newGenericCiRule _ _ _ ▸ hkey) (by decide)
  · exact absurd (key_newGenericCiRule _ _ _ ▸ hkey) (by decide)

/-- C2, evaluated: with the threshold `0.9` the rule passes an efficiency of
0.95 and of exactly 0.9, and fails an efficiency of 0.85. -/
theorem lowestEfficiency_failed_iff_witness :
    sampleLibrary.ParseFloat (sampleConfig "rules.lowestEfficiency") = .ok float0_9 ∧
    (∃ message,
      (newGenericCiRule "lowestEfficiency" (sampleConfig "rules.lowestEfficiency")
        (lowestEfficiencyEvaluator sampleLibrary)).Evaluate (some sampleAnalysis) =
        some (RulePassed, message)) ∧
    (∃ message,
      (newGenericCiRule "lowestEfficiency" (sampleConfig "rules.lowestEfficiency")
        (lowestEfficiencyEvaluator sampleLibrary)).Evaluate
        (some { sampleAnalysis with Efficiency := float0_9 }) =
        some (RulePassed, message)) ∧
    (∃ message,
      (newGenericCiRule "lowestEfficiency" (sampleConfig "rules.lowestEfficiency")
        (lowestEfficiencyEvaluator sampleLibrary)).Evaluate
        (some { sampleAnalysis with Efficiency := float0_85 }) =
        some (RuleFailed, message)) := by
  have hmem := (mem_loadCiRules sampleLibrary sampleConfig _).2 (Or.inl rfl)
  refine ⟨rfl, ?_, ?_, ?_⟩
  · obtain ⟨status, message, heval, -, hpass, -⟩ :=
      (lowestEfficiency_failed_iff sampleLibrary sampleConfig).2 _ hmem rfl float0_9 rfl
        sampleAnalysis
    exact ⟨message, by rw [heval, hpass (by decide)]⟩
  · obtain ⟨status, message, heval, -, -, heq⟩ :=
      (lowestEfficiency_failed_iff sampleLibrary sampleConfig).2 _ hmem rfl float0_9 rfl
        { sampleAnalysis with Efficiency := float0_9 }
    exact ⟨message, by rw [heval, heq (by decide)]⟩
  · obtain ⟨status, message, heval, hiff, -, -⟩ :=
      (lowestEfficiency_failed_iff sampleLibrary sampleConfig).2 _ hmem rfl float0_9 rfl
        { sampleAnalysis with Efficiency := float0_85 }
    exact ⟨message, by rw [heval, hiff.2 (by decide)]⟩

/-- C3. The `highestUserWastedPercent` rule of the catalog: when its
configuration value parses to the number `P`, then on every analysis result the
rule returns normally, with status Failed if and only if `P < WastedUserPercent`
(Go comparison of `float64`) and with status Passed otherwise;
`P == WastedUserPercent` passes. -/
theorem highestUserWastedPercent_failed_iff (lib : Library) (GetString : String → String) :
    (∃ rule ∈ loadCiRules lib GetString, rule.Key = "highestUserWastedPercent") ∧
    ∀ rule ∈ loadCiRules lib GetString, rule.Key = "highestUserWastedPercent" →
      ∀ (P : Float64), lib.ParseFloat rule.Configuration = .ok P →
      ∀ analysis : AnalysisResult,
        ∃ status message, rule.Evaluate (some analysis) = some (status, message) ∧
          (status = RuleFailed ↔ Float64.lt P analysis.WastedUserPercent = true) ∧
          (¬ Float64.lt P analysis.WastedUserPercent = true → status = RulePassed) ∧
          (Float64.eq P analysis.WastedUserPercent = true → status = RulePassed) := by
  refine ⟨⟨_, (mem_loadCiRules lib GetString _).2 (Or.inr (Or.inr rfl)), rfl⟩, ?_⟩
  intro rule hmem hkey P hparse analysis
  rcases (mem_loadCiRules lib GetString rule).1 hmem with h | h | h <;> subst h
  · exact absurd (key_newGenericCiRule _ _ _ ▸ hkey) (by decide)
  · exact absurd (key_newGenericCiRule _ _ _ ▸ hkey) (by decide)
  · cases hlt : Float64.lt P analysis.WastedUserPercent
    · exact ⟨RulePassed, _, highestUserWastedPercentEvaluator_pass lib analysis _ P hparse hlt,
        ⟨fun h => absurd h.symm ruleFailed_ne_rulePassed, fun h => absurd h (by simp)⟩,
        fun _ => rfl, fun _ => rfl⟩
    · refine ⟨RuleFailed, _,
        highestUserWastedPercentEvaluator_fail lib analysis _ P hparse hlt,
        ⟨fun _ => rfl, fun _ => rfl⟩, fun h => absurd rfl h, fun h => ?_⟩
      rw [Float64.eq_not_lt _ _ h] at hlt
      exact absurd hlt (by simp)

/-- C3, evaluated: with the threshold `20` the rule fails a wasted-user-percent
of 25 and passes one of exactly 20. -/
theorem highestUserWastedPercent_failed_iff_witness :
    sampleLibrary.ParseFloat (sampleConfig "rules.highestUserWastedPercent") = .ok float20 ∧
    (∃ message,
      (newGenericCiRule "highestUserWastedPercent"
        (sampleConfig "rules.highestUserWastedPercent")
        (highestUserWastedPercentEvaluator sampleLibrary)).Evaluate (some sampleAnalysis) =
        some (RuleFailed, message)) ∧
    (∃ message,
      (newGenericCiRule "highestUserWastedPercent"
        (sampleConfig "rules.highestUserWastedPercent")
        (highestUserWastedPercentEvaluator sampleLibrary)).Evaluate
        (some { sampleAnalysis with WastedUserPercent := float20 }) =
        some (RulePassed, message)) := by
  have hmem := (mem_loadCiRules sampleLibrary sampleConfig _).2 (Or.inr (Or.inr rfl))
  refine ⟨rfl, ?_, ?_⟩
  · obtain ⟨status, message, heval, hiff, -, -⟩ :=
      (highestUserWastedPercent_failed_iff sampleLibrary sampleConfig).2 _ hmem rfl float20 rfl
        sampleAnalysis
    exact ⟨message, by rw [heval, hiff.2 (by decide)]⟩
  · obtain ⟨status, message, heval, -, -, heq⟩ :=
      (highestUserWastedPercent_failed_iff sampleLibrary sampleConfig).2 _ hmem rfl float20 rfl
        { sampleAnalysis with WastedUserPercent := float20 }
    exact ⟨message, by rw [heval, heq (by decide)]⟩

/-! ## Malformed and missing configuration -/

/-- C4. For each of the three rules of the catalog and every analysis pointer
(the nil pointer included): when the parser of the rule (the float parser for
`lowestEfficiency` and `highestUserWastedPercent`, the byte-size parser for
`highestWastedBytes`) rejects the configuration value of the rule, `Evaluate`
returns normally, with status Failed and a non-empty message. -/
theorem evaluate_parse_error_failed (lib : Library) (GetString : String → String) :
    ∀ rule ∈ loadCiRules lib GetString, ∀ (err : String),
      (((rule.Key = "lowestEfficiency" ∨ rule.Key = "highestUserWastedPercent") ∧
          lib.ParseFloat rule.Configuration = .error err) ∨
        (rule.Key = "highestWastedBytes" ∧
          lib.ParseBytes rule.Configuration = .error err)) →
      ∀ result : Option AnalysisResult,
        ∃ message, rule.Evaluate result = some (RuleFailed, message) ∧ message ≠ "" := by
  intro rule hmem err hrej result
  rcases (mem_loadCiRules lib GetString rule).1 hmem with h | h | h <;> subst h
  · rcases hrej with ⟨-, hparse⟩ | ⟨hkey, -⟩
    · exact ⟨_, lowestEfficiencyEvaluator_error lib result _ err hparse,
        invalidConfig_ne_empty _ _⟩
    · exact absurd (key_newGenericCiRule _ _ _ ▸ hkey) (by decide)
  · rcases hrej with ⟨hkey | hkey, -⟩ | ⟨-, hparse⟩
    · exact absurd (key_newGenericCiRule _ _ _ ▸ hkey) (by decide)
    · exact absurd (key_newGenericCiRule _ _ _ ▸ hkey) (by decide)
    · exact ⟨_, highestWastedBytesEvaluator_error lib result _ err hparse,
        invalidConfig_ne_empty _ _⟩
  · rcases hrej with ⟨-, hparse⟩ | ⟨hkey, -⟩
    · exact ⟨_, highestUserWastedPercentEvaluator_error lib result _ err hparse,
        invalidConfig_ne_empty _ _⟩
    · exact absurd (key_newGenericCiRule _ _ _ ▸ hkey) (by decide)

/-- C4, evaluated: with `not-a-number` and `10XB` as thresholds the float rule
and the byte-size rule return Failed with a non-empty message, on a nil analysis
pointer as well. -/
theorem evaluate_parse_error_failed_witness :
    (∃ message,
      (newGenericCiRule "lowestEfficiency" "not-a-number"
        (lowestEfficiencyEvaluator sampleLibrary)).Evaluate none =
        some (RuleFailed, message) ∧ message ≠ "") ∧
    (∃ message,
      (newGenericCiRule "highestWastedBytes" "10XB"
        (highestWastedBytesEvaluator sampleLibrary)).Evaluate (some sampleAnalysis) =
        some (RuleFailed, message) ∧ message ≠ "") :=
  ⟨evaluate_parse_error_failed sampleLibrary malformedConfig _
      ((mem_loadCiRules sampleLibrary malformedConfig _).2 (Or.inl rfl))
      "strconv.ParseFloat: parsing \"not-a-number\": invalid syntax"
      (Or.inl ⟨Or.inl rfl, rfl⟩) none,
   evaluate_parse_error_failed sampleLibrary malformedConfig _
      ((mem_loadCiRules sampleLibrary malformedConfig _).2 (Or.inr (Or.inl rfl)))
      "strconv.ParseFloat: parsing \"10XB\": invalid syntax"
      (Or.inr ⟨rfl, rfl⟩) (some sampleAnalysis)⟩

/-- C5. Fail-closed default: when the configuration returns the empty string for
the three keys `rules.lowestEfficiency`, `rules.highestWastedBytes` and
`rules.highestUserWastedPercent`, and the two parsers reject the empty string,
the catalog has three rules and every one of them evaluates, on every analysis
pointer, to Failed with the non-empty message of a parse error on the value
`""`. -/
theorem evaluate_missing_keys_failed (lib : Library) (GetString : String → String)
    (floatErr bytesErr : String)
    (hfloat : lib.ParseFloat "" = .error floatErr)
    (hbytes : lib.ParseBytes "" = .error bytesErr)
    (h1 : GetString "rules.lowestEfficiency" = "")
    (h2 : GetString "rules.highestWastedBytes" = "")
    (h3 : GetString "rules.highestUserWastedPercent" = "") :
    (loadCiRules lib GetString).length = 3 ∧
    ∀ rule ∈ loadCiRules lib GetString, ∀ result : Option AnalysisResult,
      ∃ message err, rule.Evaluate result = some (RuleFailed, message) ∧ message ≠ "" ∧
        message = Sprintf "invalid config value ('%v'): %v" ["", err] := by
  refine ⟨by rw [loadCiRules_eq]; rfl, ?_⟩
  intro rule hmem result
  rcases (mem_loadCiRules lib GetString rule).1 hmem with h | h | h <;> subst h
  · rw [h1]
    exact ⟨_, floatErr, lowestEfficiencyEvaluator_error lib result _ _ hfloat,
      invalidConfig_ne_empty _ _, rfl⟩
  · rw [h2]
    exact ⟨_, bytesErr, highestWastedBytesEvaluator_error lib result _ _ hbytes,
      invalidConfig_ne_empty _ _, rfl⟩
  · rw [h3]
    exact ⟨_, floatErr, highestUserWastedPercentEvaluator_error lib result _ _ hfloat,
      invalidConfig_ne_empty _ _, rfl⟩

/-- C5, evaluated: on the configuration without any key, the catalog has three
rules and its `highestWastedBytes` rule fails with a parse-error message. -/
theorem evaluate_missing_keys_failed_witness :
    sampleLibrary.ParseFloat "" = .error "strconv.ParseFloat: parsing \"\": invalid syntax" ∧
    sampleLibrary.ParseBytes "" = .error "strconv.ParseFloat: parsing \"\": invalid syntax" ∧
    (loadCiRules sampleLibrary emptyConfig).length = 3 ∧
    ∃ message err,
      (newGenericCiRule "highestWastedBytes" (emptyConfig "rules.highestWastedBytes")
        (highestWastedBytesEvaluator sampleLibrary)).Evaluate (some sampleAnalysis) =
        some (RuleFailed, message) ∧ message ≠ "" ∧
        message = Sprintf "invalid config value ('%v'): %v" ["", err] :=
  have h := evaluate_missing_keys_failed sampleLibrary emptyConfig
    "strconv.ParseFloat: parsing \"\": invalid syntax"
    "strconv.ParseFloat: parsing \"\": invalid syntax" rfl rfl rfl rfl rfl
  ⟨rfl, rfl, h.1,
    h.2 _ ((mem_loadCiRules sampleLibrary emptyConfig _).2 (Or.inr (Or.inl rfl)))
      (some sampleAnalysis)⟩

/-! ## The catalog -/

/-- C6. For every configuration, every rule of the catalog and every analysis
result, `Evaluate` returns normally and its status is not Unknown. -/
theorem evaluate_never_unknown (lib : Library) (GetString : String → String) :
    ∀ rule ∈ loadCiRules lib GetString, ∀ analysis : AnalysisResult,
      ∃ status message, rule.Evaluate (some analysis) = some (status, message) ∧
        status ≠ RuleUnknown := by
  intro rule hmem analysis
  rcases (mem_loadCiRules lib GetString rule).1 hmem with h | h | h <;> subst h
  · cases hparse : lib.ParseFloat (GetString "rules.lowestEfficiency") with
    | error err =>
      exact ⟨_, _, lowestEfficiencyEvaluator_error lib (some analysis) _ err hparse,
        ruleFailed_ne_ruleUnknown⟩
    | ok T =>
      cases hgt : Float64.gt T analysis.Efficiency
      · exact ⟨_, _, lowestEfficiencyEvaluator_pass lib analysis _ T hparse hgt,
          rulePassed_ne_ruleUnknown⟩
      · exact ⟨_, _, lowestEfficiencyEvaluator_fail lib analysis _ T hparse hgt,
          ruleFailed_ne_ruleUnknown⟩
  · cases hparse : lib.ParseBytes (GetString "rules.highestWastedBytes") with
    | error err =>
      exact ⟨_, _, highestWastedBytesEvaluator_error lib (some analysis) _ err hparse,
        ruleFailed_ne_ruleUnknown⟩
    | ok W =>
      by_cases hgt : analysis.WastedBytes > W
      · exact ⟨_, _, highestWastedBytesEvaluator_fail lib analysis _ W hparse hgt,
          ruleFailed_ne_ruleUnknown⟩
      · exact ⟨_, _, highestWastedBytesEvaluator_pass lib analysis _ W hparse hgt,
          rulePassed_ne_ruleUnknown⟩
  · cases hparse : lib.ParseFloat (GetString "rules.highestUserWastedPercent") with
    | error err =>
      exact ⟨_, _, highestUserWastedPercentEvaluator_error lib (some analysis) _ err hparse,
        ruleFailed_ne_ruleUnknown⟩
    | ok P =>
      cases hlt : Float64.lt P analysis.WastedUserPercent
      · exact ⟨_, _, highestUserWastedPercentEvaluator_pass lib analysis _ P hparse hlt,
          rulePassed_ne_ruleUnknown⟩
      · exact ⟨_, _, highestUserWastedPercentEvaluator_fail lib analysis _ P hparse hlt,
          ruleFailed_ne_ruleUnknown⟩

/-- C6, evaluated: the `lowestEfficiency` rule of the sample configuration
returns a status other than Unknown on the sample analysis. -/
theorem evaluate_never_unknown_witness :
    ∃ status message,
      (newGenericCiRule "lowestEfficiency" (sampleConfig "rules.lowestEfficiency")
        (lowestEfficiencyEvaluator sampleLibrary)).Evaluate (some sampleAnalysis) =
        some (status, message) ∧ status ≠ RuleUnknown :=
  evaluate_never_unknown sampleLibrary sampleConfig _
    ((mem_loadCiRules sampleLibrary sampleConfig _).2 (Or.inl rfl)) sampleAnalysis

/-- C7. For every configuration, the catalog is a list of exactly three rules
whose keys are, in this order, `lowestEfficiency`, `highestWastedBytes` and
`highestUserWastedPercent`; the keys are pairwise distinct, and the
configuration value of each rule is the string `GetString` returns for `rules.`
followed by the key of the rule, unchanged. -/
theorem loadCiRules_keys_and_configuration (lib : Library) (GetString : String → String) :
    (loadCiRules lib GetString).length = 3 ∧
    (loadCiRules lib GetString).map GenericCiRule.Key =
      ["lowestEfficiency", "highestWastedBytes", "highestUserWastedPercent"] ∧
    ((loadCiRules lib GetString).map GenericCiRule.Key).Nodup ∧
    (loadCiRules lib GetString).map GenericCiRule.Configuration =
      (loadCiRules lib GetString).map (fun rule => GetString ("rules." ++ rule.Key)) := by
  rw [loadCiRules_eq]
  refine ⟨rfl, rfl, ?_, ?_⟩
  · simp only [List.map, key_newGenericCiRule]
    decide
  · simp only [List.map, key_newGenericCiRule, GenericCiRule.Configuration, newGenericCiRule]
    rfl

/-! ## Rendering of a status -/

/-- C8, as stated, fails: on an ANSI terminal the rendering of Failed is the
label `FAIL` enclosed in the escape sequences for bold, inverse and red, not the
bare label. -/
theorem ruleStatus_string_failed_styled :
    RuleStatus.String ansiAurora RuleFailed = "\x1b[1;7;31mFAIL\x1b[0m" ∧
    RuleStatus.String ansiAurora RuleFailed ≠ "FAIL" := by
  decide

/-- C8, amended. `RuleStatus.String` is total and, for every integer status
value and every implementation of the styling package, returns `PASS` unstyled
for Passed and otherwise the styled rendering of a fixed label: `FAIL` in bold
inverse red for Failed, `WARN` in blue for Warning, `SKIP` in blue for Disabled,
and `Unknown` in inverse for Unknown and for every other value. -/
theorem ruleStatus_string_labels {V : Type} (au : Aurora V) (status : RuleStatus) :
    (status = RulePassed → RuleStatus.String au status = "PASS") ∧
    (status = RuleFailed →
      RuleStatus.String au status = au.String (au.Bold (au.Inverse (au.Red "FAIL")))) ∧
    (status = RuleWarning → RuleStatus.String au status = au.String (au.Blue "WARN")) ∧
    (status = RuleDisabled → RuleStatus.String au status = au.String (au.Blue "SKIP")) ∧
    (status = RuleUnknown ∨ status < 0 ∨ status > 4 →
      RuleStatus.String au status = au.String (au.InverseText "Unknown")) := by
  refine ⟨?_, ?_, ?_, ?_, ?_⟩
  · intro h
    subst h
    rfl
  · intro h
    subst h
    rfl
  · intro h
    subst h
    rfl
  · intro h
    subst h
    rfl
  · intro h
    obtain ⟨h1, h2, h3, h4⟩ := status_out_of_range status h
    have h1 : status ≠ RulePassed := h1
    have h2 : status ≠ RuleFailed := h2
    have h3 : status ≠ RuleWarning := h3
    have h4 : status ≠ RuleDisabled := h4
    simp only [RuleStatus.String, if_neg h1, if_neg h2, if_neg h3, if_neg h4]

/-- C8 amended, evaluated on an ANSI terminal: Warning is rendered as `WARN` in
blue, and the out-of-range values 5 and -1 as `Unknown` in inverse. -/
theorem ruleStatus_string_labels_witness :
    RuleStatus.String ansiAurora 3 = "\x1b[34mWARN\x1b[0m" ∧
    RuleStatus.String ansiAurora 5 = "\x1b[7mUnknown\x1b[0m" ∧
    RuleStatus.String ansiAurora (-1) = "\x1b[7mUnknown\x1b[0m" :=
  ⟨((ruleStatus_string_labels ansiAurora 3).2.2.1 rfl).trans (by decide),
   ((ruleStatus_string_labels ansiAurora 5).2.2.2.2 (Or.inr (Or.inr (by decide)))).trans
     (by decide),
   ((ruleStatus_string_labels ansiAurora (-1)).2.2.2.2 (Or.inr (Or.inl (by decide)))).trans
     (by decide)⟩

/-! ## The generic rule -/

/-- C9. For every key, raw configuration string, evaluator function and analysis
pointer, the rule built by `newGenericCiRule` has this key, this configuration
string, and evaluates to what the evaluator returns on the pointer and the
configuration string. -/
theorem newGenericCiRule_accessors (key configValue : String)
    (evaluator : Option AnalysisResult → String → Option (RuleStatus × String))
    (result : Option AnalysisResult) :
    (newGenericCiRule key configValue evaluator).Key = key ∧
    (newGenericCiRule key configValue evaluator).Configuration = configValue ∧
    (newGenericCiRule key configValue evaluator).Evaluate result =
      evaluator result configValue :=
  ⟨rfl, rfl, rfl⟩

/-- C10. For every configuration, every rule of the catalog and every analysis
result, `Evaluate` returns normally, its message is empty if and only if its
status is Passed, and a Failed status comes with a non-empty message. -/
theorem evaluate_message_empty_iff_passed (lib : Library) (GetString : String → String) :
    ∀ rule ∈ loadCiRules lib GetString, ∀ analysis : AnalysisResult,
      ∃ status message, rule.Evaluate (some analysis) = some (status, message) ∧
        (message = "" ↔ status = RulePassed) ∧
        (status = RuleFailed → message ≠ "") := by
  intro rule hmem analysis
  have hfail : ∀ {message : String}, message ≠ "" →
      (message = "" ↔ RuleFailed = RulePassed) ∧ (RuleFailed = RuleFailed → message ≠ "") :=
    fun hne => ⟨⟨fun h => absurd h hne, fun h => absurd h ruleFailed_ne_rulePassed⟩,
      fun _ => hne⟩
  have hpass : (("" : String) = "" ↔ RulePassed = RulePassed) ∧
      (RulePassed = RuleFailed → ("" : String) ≠ "") :=
    ⟨⟨fun _ => rfl, fun _ => rfl⟩, fun h => absurd h.symm ruleFailed_ne_rulePassed⟩
  rcases (mem_loadCiRules lib GetString rule).1 hmem with h | h | h <;> subst h
  · cases hparse : lib.ParseFloat (GetString "rules.lowestEfficiency") with
    | error err =>
      exact ⟨_, _, lowestEfficiencyEvaluator_error lib (some analysis) _ err hparse,
        hfail (invalidConfig_ne_empty _ _)⟩
    | ok T =>
      cases hgt : Float64.gt T analysis.Efficiency
      · exact ⟨_, _, lowestEfficiencyEvaluator_pass lib analysis _ T hparse hgt, hpass⟩
      · exact ⟨_, _, lowestEfficiencyEvaluator_fail lib analysis _ T hparse hgt,
          hfail (efficiencyMessage_ne_empty _ _)⟩
  · cases hparse : lib.ParseBytes (GetString "rules.highestWastedBytes") with
    | error err =>
      exact ⟨_, _, highestWastedBytesEvaluator_error lib (some analysis) _ err hparse,
        hfail (invalidConfig_ne_empty _ _)⟩
    | ok W =>
      by_cases hgt : analysis.WastedBytes > W
      · exact ⟨_, _, highestWastedBytesEvaluator_fail lib analysis _ W hparse hgt,
          hfail (wastedBytesMessage_ne_empty _ _)⟩
      · exact ⟨_, _, highestWastedBytesEvaluator_pass lib analysis _ W hparse hgt, hpass⟩
  · cases hparse : lib.ParseFloat (GetString "rules.highestUserWastedPercent") with
    | error err =>
      exact ⟨_, _, highestUserWastedPercentEvaluator_error lib (some analysis) _ err hparse,
        hfail (invalidConfig_ne_empty _ _)⟩
    | ok P =>
      cases hlt : Float64.lt P analysis.WastedUserPercent
      · exact ⟨_, _, highestUserWastedPercentEvaluator_pass lib analysis _ P hparse hlt,
          hpass⟩
      · exact ⟨_, _, highestUserWastedPercentEvaluator_fail lib analysis _ P hparse hlt,
          hfail (userWastedMessage_ne_empty _ _)⟩

/-- C10, evaluated: on the sample analysis the `highestWastedBytes` rule of the
sample configuration returns a message that is empty exactly when it passes. -/
theorem evaluate_message_empty_iff_passed_witness :
    ∃ status message,
      (newGenericCiRule "highestWastedBytes" (sampleConfig "rules.highestWastedBytes")
        (highestWastedBytesEvaluator sampleLibrary)).Evaluate (some sampleAnalysis) =
        some (status, message) ∧
        (message = "" ↔ status = RulePassed) ∧ (status = RuleFailed → message ≠ "") :=
  evaluate_message_empty_iff_passed sampleLibrary sampleConfig _
    ((mem_loadCiRules sampleLibrary sampleConfig _).2 (Or.inr (Or.inl rfl))) sampleAnalysis

/-! ## Independence and determinism -/

/-- On an analysis result a rule of the catalog returns normally, either Passed
with the empty message or Failed with a non-empty one. -/
theorem evaluate_some_cases (lib : Library) (GetString : String → String)
    (rule : GenericCiRule) (hmem : rule ∈ loadCiRules lib GetString)
    (analysis : AnalysisResult) :
    rule.Evaluate (some analysis) = some (RulePassed, "") ∨
      ∃ message, rule.Evaluate (some analysis) = some (RuleFailed, message) ∧
        message ≠ "" := by
  rcases (mem_loadCiRules lib GetString rule).1 hmem with h | h | h <;> subst h
  · cases hparse : lib.ParseFloat (GetString "rules.lowestEfficiency") with
    | error err =>
      exact Or.inr ⟨_, lowestEfficiencyEvaluator_error lib (some analysis) _ err hparse,
        invalidConfig_ne_empty _ _⟩
    | ok T =>
      cases hgt : Float64.gt T analysis.Efficiency
      · exact Or.inl (lowestEfficiencyEvaluator_pass lib analysis _ T hparse hgt)
      · exact Or.inr ⟨_, lowestEfficiencyEvaluator_fail lib analysis _ T hparse hgt,
          efficiencyMessage_ne_empty _ _⟩
  · cases hparse : lib.ParseBytes (GetString "rules.highestWastedBytes") with
    | error err =>
      exact Or.inr ⟨_, highestWastedBytesEvaluator_error lib (some analysis) _ err hparse,
        invalidConfig_ne_empty _ _⟩
    | ok W =>
      by_cases hgt : analysis.WastedBytes > W
      · exact Or.inr ⟨_, highestWastedBytesEvaluator_fail lib analysis _ W hparse hgt,
          wastedBytesMessage_ne_empty _ _⟩
      · exact Or.inl (highestWastedBytesEvaluator_pass lib analysis _ W hparse hgt)
  · cases hparse : lib.ParseFloat (GetString "rules.highestUserWastedPercent") with
    | error err =>
      exact Or.inr ⟨_,
        highestUserWastedPercentEvaluator_error lib (some analysis) _ err hparse,
        invalidConfig_ne_empty _ _⟩
    | ok P =>
      cases hlt : Float64.lt P analysis.WastedUserPercent
      · exact Or.inl (highestUserWastedPercentEvaluator_pass lib analysis _ P hparse hlt)
      · exact Or.inr ⟨_, highestUserWastedPercentEvaluator_fail lib analysis _ P hparse hlt,
          userWastedMessage_ne_empty _ _⟩

/-- C11. Independence: when two configurations return the same string for
`rules.` followed by a rule key, the rules with this key in the two catalogs
return the same result on every analysis pointer, whatever the configurations
return for the other keys. -/
theorem evaluate_independent_of_other_keys (lib : Library)
    (GetString1 GetString2 : String → String) :
    ∀ rule1 ∈ loadCiRules lib GetString1, ∀ rule2 ∈ loadCiRules lib GetString2,
      rule1.Key = rule2.Key →
      GetString1 ("rules." ++ rule1.Key) = GetString2 ("rules." ++ rule1.Key) →
      ∀ result : Option AnalysisResult, rule1.Evaluate result = rule2.Evaluate result := by
  intro rule1 hmem1 rule2 hmem2 hkey hsame result
  rcases (mem_loadCiRules lib GetString1 rule1).1 hmem1 with h1 | h1 | h1 <;> subst h1 <;>
    rcases (mem_loadCiRules lib GetString2 rule2).1 hmem2 with h2 | h2 | h2 <;> subst h2
  · have hvalue : GetString1 "rules.lowestEfficiency" = GetString2 "rules.lowestEfficiency" := hsame
    show lowestEfficiencyEvaluator lib result (GetString1 "rules.lowestEfficiency") =
      lowestEfficiencyEvaluator lib result (GetString2 "rules.lowestEfficiency")
    rw [hvalue]
  · have hk : ("lowestEfficiency" : String) = "highestWastedBytes" := hkey
    exact absurd hk (by decide)
  · have hk : ("lowestEfficiency" : String) = "highestUserWastedPercent" := hkey
    exact absurd hk (by decide)
  · have hk : ("highestWastedBytes" : String) = "lowestEfficiency" := hkey
    exact absurd hk (by decide)
  · have hvalue : GetString1 "rules.highestWastedBytes" = GetString2 "rules.highestWastedBytes" := hsame
    show highestWastedBytesEvaluator lib result (GetString1 "rules.highestWastedBytes") =
      highestWastedBytesEvaluator lib result (GetString2 "rules.highestWastedBytes")
    rw [hvalue]
  · have hk : ("highestWastedBytes" : String) = "highestUserWastedPercent" := hkey
    exact absurd hk (by decide)
  · have hk : ("highestUserWastedPercent" : String) = "lowestEfficiency" := hkey
    exact absurd hk (by decide)
  · have hk : ("highestUserWastedPercent" : String) = "highestWastedBytes" := hkey
    exact absurd hk (by decide)
  · have hvalue : GetString1 "rules.highestUserWastedPercent" = GetString2 "rules.highestUserWastedPercent" := hsame
    show highestUserWastedPercentEvaluator lib result (GetString1 "rules.highestUserWastedPercent") =
      highestUserWastedPercentEvaluator lib result (GetString2 "rules.highestUserWastedPercent")
    rw [hvalue]

/-- C11, evaluated: two configurations that agree on `rules.highestWastedBytes`
and differ on the two other keys give byte rules with the same result. -/
theorem evaluate_independent_of_other_keys_witness :
    sampleConfig "rules.lowestEfficiency" ≠ bytesOnlyConfig "rules.lowestEfficiency" ∧
    sampleConfig "rules.highestWastedBytes" = bytesOnlyConfig "rules.highestWastedBytes" ∧
    (newGenericCiRule "highestWastedBytes" (sampleConfig "rules.highestWastedBytes")
        (highestWastedBytesEvaluator sampleLibrary)).Evaluate (some sampleAnalysis) =
      (newGenericCiRule "highestWastedBytes" (bytesOnlyConfig "rules.highestWastedBytes")
        (highestWastedBytesEvaluator sampleLibrary)).Evaluate (some sampleAnalysis) :=
  ⟨by decide, by decide,
    evaluate_independent_of_other_keys sampleLibrary sampleConfig bytesOnlyConfig _
      ((mem_loadCiRules sampleLibrary sampleConfig _).2 (Or.inr (Or.inl rfl))) _
      ((mem_loadCiRules sampleLibrary bytesOnlyConfig _).2 (Or.inr (Or.inl rfl)))
      rfl (by decide) (some sampleAnalysis)⟩

/-! ### Calls in memory -/

theorem lowestEfficiencyClosure_eq (lib : Library) (mem : Memory) (value : String) :
    lowestEfficiencyClosure lib mem value =
      (mem, lowestEfficiencyEvaluator lib mem.analysis value) := by
  unfold lowestEfficiencyClosure lowestEfficiencyEvaluator
  cases lib.ParseFloat value with
  | error err => rfl
  | ok T =>
    cases mem.analysis with
    | none => rfl
    | some analysis =>
      cases hgt : Float64.gt T analysis.Efficiency <;> simp [hgt]

theorem highestWastedBytesClosure_eq (lib : Library) (mem : Memory) (value : String) :
    highestWastedBytesClosure lib mem value =
      (mem, highestWastedBytesEvaluator lib mem.analysis value) := by
  unfold highestWastedBytesClosure highestWastedBytesEvaluator
  cases lib.ParseBytes value with
  | error err => rfl
  | ok W =>
    cases mem.analysis with
    | none => rfl
    | some analysis =>
      by_cases hgt : analysis.WastedBytes > W <;> simp [hgt]

theorem highestUserWastedPercentClosure_eq (lib : Library) (mem : Memory) (value : String) :
    highestUserWastedPercentClosure lib mem value =
      (mem, highestUserWastedPercentEvaluator lib mem.analysis value) := by
  unfold highestUserWastedPercentClosure highestUserWastedPercentEvaluator
  cases lib.ParseFloat value with
  | error err => rfl
  | ok P =>
    cases mem.analysis with
    | none => rfl
    | some analysis =>
      cases hlt : Float64.lt P analysis.WastedUserPercent <;> simp [hlt]

/-- The catalog of rule objects, with the assignments carried out. -/
theorem loadCiRuleObjects_eq (lib : Library) (GetString : String → String) :
    loadCiRuleObjects lib GetString =
      [RuleObject.mk "lowestEfficiency" (GetString "rules.lowestEfficiency")
          (lowestEfficiencyClosure lib),
       RuleObject.mk "highestWastedBytes" (GetString "rules.highestWastedBytes")
          (highestWastedBytesClosure lib),
       RuleObject.mk "highestUserWastedPercent" (GetString "rules.highestUserWastedPercent")
          (highestUserWastedPercentClosure lib)] := by
  simp only [loadCiRuleObjects, sprintf_key_lowestEfficiency, sprintf_key_highestWastedBytes,
    sprintf_key_highestUserWastedPercent, List.nil_append, List.cons_append]

/-- The rule objects of the catalog, read as values, are the rules of
`loadCiRules`, in the same order. -/
theorem loadCiRuleObjects_toRule (lib : Library) (GetString : String → String) :
    (loadCiRuleObjects lib GetString).map RuleObject.toRule = loadCiRules lib GetString := by
  rw [loadCiRuleObjects_eq, loadCiRules_eq]
  simp only [List.map, RuleObject.toRule, RuleObject.memory, lowestEfficiencyClosure_eq,
    highestWastedBytesClosure_eq, highestUserWastedPercentClosure_eq]

/-- Calls of a function value that leaves the memory as it found it return the
result of the first call each time. -/
theorem evaluateRepeatedly_of_preserving (evaluator : Closure)
    (hpreserve : ∀ mem value, (evaluator mem value).1 = mem) (mem : Memory) (n : Nat) :
    evaluateRepeatedly evaluator mem n =
      (mem, List.replicate n (evaluator mem mem.configValue).2) := by
  induction n with
  | zero => rfl
  | succ n ih =>
    simp only [evaluateRepeatedly, EvaluateInMemory, hpreserve, ih, List.replicate_succ]

/-- Repeated calls do not return the same result for every function value: a
function value that assigns to the receiver returns another message on the
second call. -/
theorem evaluateRepeatedly_appendingClosure :
    (evaluateRepeatedly appendingClosure
      { key := "k", configValue := "1", analysis := none } 2).2 =
      [some (RulePassed, "1"), some (RulePassed, "10")] := by
  decide

/-- C12. Determinism: for every rule of the catalog and every analysis result, a
call of `Evaluate` returns normally, any number of successive calls, each run in
the memory the previous one left, return the same (status, message) pair, and
the memory after the calls is the memory before them: the key and the
configuration value of the rule, and the analysis result, are unchanged. -/
theorem evaluate_deterministic (lib : Library) (GetString : String → String) :
    (loadCiRuleObjects lib GetString).map RuleObject.toRule = loadCiRules lib GetString ∧
    ∀ rule ∈ loadCiRuleObjects lib GetString, ∀ (analysis : AnalysisResult) (n : Nat),
      ∃ status message,
        (EvaluateInMemory rule.evaluator (rule.memory (some analysis))).2 =
          some (status, message) ∧
        (evaluateRepeatedly rule.evaluator (rule.memory (some analysis)) n).2 =
          List.replicate n (some (status, message)) ∧
        (evaluateRepeatedly rule.evaluator (rule.memory (some analysis)) n).1 =
          rule.memory (some analysis) ∧
        (evaluateRepeatedly rule.evaluator (rule.memory (some analysis)) n).1.key =
          rule.key ∧
        (evaluateRepeatedly rule.evaluator (rule.memory (some analysis)) n).1.configValue =
          rule.configValue := by
  refine ⟨loadCiRuleObjects_toRule lib GetString, ?_⟩
  intro rule hmem analysis n
  have hrule : rule.toRule ∈ loadCiRules lib GetString := by
    rw [← loadCiRuleObjects_toRule]
    exact List.mem_map_of_mem _ hmem
  have hpreserve : ∀ mem value, (rule.evaluator mem value).1 = mem := by
    rw [loadCiRuleObjects_eq] at hmem
    simp only [List.mem_cons, List.mem_singleton, List.not_mem_nil, or_false] at hmem
    intro mem value
    rcases hmem with h | h | h <;> subst h
    · show (lowestEfficiencyClosure lib mem value).1 = mem
      rw [lowestEfficiencyClosure_eq]
    · show (highestWastedBytesClosure lib mem value).1 = mem
      rw [highestWastedBytesClosure_eq]
    · show (highestUserWastedPercentClosure lib mem value).1 = mem
      rw [highestUserWastedPercentClosure_eq]
  have hcall : (EvaluateInMemory rule.evaluator (rule.memory (some analysis))).2 =
      rule.toRule.Evaluate (some analysis) := rfl
  rw [evaluateRepeatedly_of_preserving _ hpreserve]
  rcases evaluate_some_cases lib GetString _ hrule analysis with h | ⟨message, h, -⟩
  · refine ⟨RulePassed, "", hcall.trans h, ?_, rfl, rfl, rfl⟩
    show List.replicate n (EvaluateInMemory rule.evaluator (rule.memory (some analysis))).2 = _
    rw [hcall, h]
  · refine ⟨RuleFailed, message, hcall.trans h, ?_, rfl, rfl, rfl⟩
    show List.replicate n (EvaluateInMemory rule.evaluator (rule.memory (some analysis))).2 = _
    rw [hcall, h]

/-- C12, evaluated: three successive calls of the byte rule of the sample
configuration on the sample analysis return Failed with one and the same
message, and leave the threshold `10MB` in the rule. -/
theorem evaluate_deterministic_witness :
    (evaluateRepeatedly (highestWastedBytesClosure sampleLibrary)
      { key := "highestWastedBytes", configValue := "10MB",
        analysis := some sampleAnalysis } 3).2 =
      [some (RuleFailed, "too many bytes wasted (wasted-bytes=15728640 > threshold=10000000)"),
       some (RuleFailed, "too many bytes wasted (wasted-bytes=15728640 > threshold=10000000)"),
       some (RuleFailed,
         "too many bytes wasted (wasted-bytes=15728640 > threshold=10000000)")] ∧
    (evaluateRepeatedly (highestWastedBytesClosure sampleLibrary)
      { key := "highestWastedBytes", configValue := "10MB",
        analysis := some sampleAnalysis } 3).1.configValue = "10MB" := by
  have hmem : RuleObject.mk "highestWastedBytes" (sampleConfig "rules.highestWastedBytes")
      (highestWastedBytesClosure sampleLibrary) ∈
      loadCiRuleObjects sampleLibrary sampleConfig := by
    rw [loadCiRuleObjects_eq]
    exact List.mem_cons_of_mem _ (List.mem_cons_self _ _)
  obtain ⟨status, message, hone, hresults, -, -, hconfig⟩ :=
    (evaluate_deterministic sampleLibrary sampleConfig).2 _ hmem sampleAnalysis 3
  have hfirst : (EvaluateInMemory (highestWastedBytesClosure sampleLibrary)
      { key := "highestWastedBytes", configValue := "10MB",
        analysis := some sampleAnalysis }).2 =
      some (RuleFailed,
        "too many bytes wasted (wasted-bytes=15728640 > threshold=10000000)") := by
    decide
  refine ⟨?_, hconfig⟩
  have hpair : some (status, message) = some (RuleFailed,
      "too many bytes wasted (wasted-bytes=15728640 > threshold=10000000)") :=
    hone.symm.trans hfirst
  exact hresults.trans (by rw [hpair]; rfl)

/-! ## Messages -/

theorem invalidConfig_eq (value err : String) :
    Sprintf "invalid config value ('%v'): %v" [value, err] =
      "invalid config value ('" ++ value ++ "'): " ++ err := by
  apply String.ext
  simp [Sprintf, sprintfAux]

theorem wastedBytesMessage_eq (a b : String) :
    Sprintf "too many bytes wasted (wasted-bytes=%v > threshold=%v)" [a, b] =
      "too many bytes wasted (wasted-bytes=" ++ a ++ " > threshold=" ++ b ++ ")" := by
  apply String.ext
  simp [Sprintf, sprintfAux]

/-- C13. For each of the three rules of the catalog: when the parser of the rule
rejects the configuration value `v` of the rule with the error `e`, the message
returned by `Evaluate`, on every analysis pointer, is
`invalid config value ('` followed by `v`, by `'): ` and by the text of `e`. -/
theorem evaluate_parse_error_message (lib : Library) (GetString : String → String) :
    ∀ rule ∈ loadCiRules lib GetString, ∀ (err : String),
      (((rule.Key = "lowestEfficiency" ∨ rule.Key = "highestUserWastedPercent") ∧
          lib.ParseFloat rule.Configuration = .error err) ∨
        (rule.Key = "highestWastedBytes" ∧
          lib.ParseBytes rule.Configuration = .error err)) →
      ∀ result : Option AnalysisResult,
        rule.Evaluate result =
          some (RuleFailed,
            "invalid config value ('" ++ rule.Configuration ++ "'): " ++ err) := by
  intro rule hmem err hrej result
  rcases (mem_loadCiRules lib GetString rule).1 hmem with h | h | h <;> subst h
  · rcases hrej with ⟨-, hparse⟩ | ⟨hkey, -⟩
    · rw [← invalidConfig_eq]
      exact lowestEfficiencyEvaluator_error lib result _ err hparse
    · exact absurd (key_newGenericCiRule _ _ _ ▸ hkey) (by decide)
  · rcases hrej with ⟨hkey | hkey, -⟩ | ⟨-, hparse⟩
    · exact absurd (key_newGenericCiRule _ _ _ ▸ hkey) (by decide)
    · exact absurd (key_newGenericCiRule _ _ _ ▸ hkey) (by decide)
    · rw [← invalidConfig_eq]
      exact highestWastedBytesEvaluator_error lib result _ err hparse
  · rcases hrej with ⟨-, hparse⟩ | ⟨hkey, -⟩
    · rw [← invalidConfig_eq]
      exact highestUserWastedPercentEvaluator_error lib result _ err hparse
    · exact absurd (key_newGenericCiRule _ _ _ ▸ hkey) (by decide)

/-- C13, evaluated: the threshold `10XB` of the byte rule and the threshold
`not-a-number` of a float rule appear verbatim in the message, followed by the
text of the parse error. -/
theorem evaluate_parse_error_message_witness :
    (newGenericCiRule "highestWastedBytes" "10XB"
        (highestWastedBytesEvaluator sampleLibrary)).Evaluate (some sampleAnalysis) =
      some (RuleFailed,
        "invalid config value ('10XB'): strconv.ParseFloat: parsing \"10XB\": invalid syntax") ∧
    (newGenericCiRule "highestUserWastedPercent" "not-a-number"
        (highestUserWastedPercentEvaluator sampleLibrary)).Evaluate none =
      some (RuleFailed,
        "invalid config value ('not-a-number'): strconv.ParseFloat: parsing \"not-a-number\": invalid syntax") :=
  ⟨(evaluate_parse_error_message sampleLibrary malformedConfig _
      ((mem_loadCiRules sampleLibrary malformedConfig _).2 (Or.inr (Or.inl rfl)))
      "strconv.ParseFloat: parsing \"10XB\": invalid syntax"
      (Or.inr ⟨rfl, rfl⟩) (some sampleAnalysis)).trans (by decide),
   (evaluate_parse_error_message sampleLibrary malformedConfig _
      ((mem_loadCiRules sampleLibrary malformedConfig _).2 (Or.inr (Or.inr rfl)))
      "strconv.ParseFloat: parsing \"not-a-number\": invalid syntax"
      (Or.inl ⟨Or.inr rfl, rfl⟩) none).trans (by decide)⟩

/-- C14. The `highestWastedBytes` rule of the catalog: when its configuration
value parses to `W` and the analysis has `WastedBytes = M` with `M > W`, the
rule returns Failed with the message
`too many bytes wasted (wasted-bytes=M > threshold=W)`, both numbers written as
decimal byte counts. -/
theorem highestWastedBytes_failed_message (lib : Library) (GetString : String → String) :
    ∀ rule ∈ loadCiRules lib GetString, rule.Key = "highestWastedBytes" →
      ∀ (W : Nat), lib.ParseBytes rule.Configuration = .ok W →
      ∀ analysis : AnalysisResult, analysis.WastedBytes > W →
        rule.Evaluate (some analysis) =
          some (RuleFailed,
            "too many bytes wasted (wasted-bytes=" ++ Nat.repr analysis.WastedBytes ++
              " > threshold=" ++ Nat.repr W ++ ")") := by
  intro rule hmem hkey W hparse analysis hgt
  rcases (mem_loadCiRules lib GetString rule).1 hmem with h | h | h <;> subst h
  · exact absurd (key_newGenericCiRule _ _ _ ▸ hkey) (by decide)
  · rw [← wastedBytesMessage_eq]
    exact highestWastedBytesEvaluator_fail lib analysis _ W hparse hgt
  · exact absurd (key_newGenericCiRule _ _ _ ▸ hkey) (by decide)

/-- C14, evaluated: with the threshold `10MB` and 15 728 640 wasted bytes the
message names both byte counts in decimal. -/
theorem highestWastedBytes_failed_message_witness :
    (15728640 : Nat) > 10000000 ∧
    (newGenericCiRule "highestWastedBytes" (sampleConfig "rules.highestWastedBytes")
        (highestWastedBytesEvaluator sampleLibrary)).Evaluate (some sampleAnalysis) =
      some (RuleFailed,
        "too many bytes wasted (wasted-bytes=15728640 > threshold=10000000)") :=
  ⟨by decide,
    (highestWastedBytes_failed_message sampleLibrary sampleConfig _
      ((mem_loadCiRules sampleLibrary sampleConfig _).2 (Or.inr (Or.inl rfl))) rfl
      10000000 rfl sampleAnalysis (by decide)).trans (by decide)⟩

/-! ## Range of the status and dependence on the analysis -/

/-- C15. For every configuration, every rule of the catalog and every analysis
result, `Evaluate` returns normally and its status is Passed or Failed; it is
neither Disabled nor Warning. -/
theorem evaluate_passed_or_failed (lib : Library) (GetString : String → String) :
    ∀ rule ∈ loadCiRules lib GetString, ∀ analysis : AnalysisResult,
      ∃ status message, rule.Evaluate (some analysis) = some (status, message) ∧
        (status = RulePassed ∨ status = RuleFailed) ∧
        status ≠ RuleDisabled ∧ status ≠ RuleWarning := by
  intro rule hmem analysis
  rcases evaluate_some_cases lib GetString rule hmem analysis with h | ⟨message, h, -⟩
  · exact ⟨RulePassed, "", h, Or.inl rfl, by decide, by decide⟩
  · exact ⟨RuleFailed, message, h, Or.inr rfl, by decide, by decide⟩

/-- C15, evaluated: the `highestUserWastedPercent` rule of the sample
configuration returns Passed or Failed on the sample analysis. -/
theorem evaluate_passed_or_failed_witness :
    ∃ status message,
      (newGenericCiRule "highestUserWastedPercent"
        (sampleConfig "rules.highestUserWastedPercent")
        (highestUserWastedPercentEvaluator sampleLibrary)).Evaluate (some sampleAnalysis) =
        some (status, message) ∧
        (status = RulePassed ∨ status = RuleFailed) ∧
        status ≠ RuleDisabled ∧ status ≠ RuleWarning :=
  evaluate_passed_or_failed sampleLibrary sampleConfig _
    ((mem_loadCiRules sampleLibrary sampleConfig _).2 (Or.inr (Or.inr rfl))) sampleAnalysis

theorem lowestEfficiencyEvaluator_congr (lib : Library) (a b : AnalysisResult)
    (value : String) (h : a.Efficiency = b.Efficiency) :
    lowestEfficiencyEvaluator lib (some a) value =
      lowestEfficiencyEvaluator lib (some b) value := by
  simp only [lowestEfficiencyEvaluator, h]

theorem highestWastedBytesEvaluator_congr (lib : Library) (a b : AnalysisResult)
    (value : String) (h : a.WastedBytes = b.WastedBytes) :
    highestWastedBytesEvaluator lib (some a) value =
      highestWastedBytesEvaluator lib (some b) value := by
  simp only [highestWastedBytesEvaluator, h]

theorem highestUserWastedPercentEvaluator_congr (lib : Library) (a b : AnalysisResult)
    (value : String) (h : a.WastedUserPercent = b.WastedUserPercent) :
    highestUserWastedPercentEvaluator lib (some a) value =
      highestUserWastedPercentEvaluator lib (some b) value := by
  simp only [highestUserWastedPercentEvaluator, h]

/-- C16. Each rule of the catalog reads one field of the analysis result: on
two analysis results with the same `Efficiency` the `lowestEfficiency` rule
returns the same result, and likewise the `highestWastedBytes` rule for the same
`WastedBytes` and the `highestUserWastedPercent` rule for the same
`WastedUserPercent`, whatever the other fields hold. -/
theorem evaluate_depends_on_one_field (lib : Library) (GetString : String → String) :
    ∀ rule ∈ loadCiRules lib GetString, ∀ a b : AnalysisResult,
      ((rule.Key = "lowestEfficiency" ∧ a.Efficiency = b.Efficiency) ∨
        (rule.Key = "highestWastedBytes" ∧ a.WastedBytes = b.WastedBytes) ∨
        (rule.Key = "highestUserWastedPercent" ∧
          a.WastedUserPercent = b.WastedUserPercent)) →
      rule.Evaluate (some a) = rule.Evaluate (some b) := by
  intro rule hmem a b hfield
  rcases (mem_loadCiRules lib GetString rule).1 hmem with h | h | h <;> subst h
  · rcases hfield with ⟨-, hfield⟩ | ⟨hkey, -⟩ | ⟨hkey, -⟩
    · exact lowestEfficiencyEvaluator_congr lib a b _ hfield
    · exact absurd (key_newGenericCiRule _ _ _ ▸ hkey) (by decide)
    · exact absurd (key_newGenericCiRule _ _ _ ▸ hkey) (by decide)
  · rcases hfield with ⟨hkey, -⟩ | ⟨-, hfield⟩ | ⟨hkey, -⟩
    · exact absurd (key_newGenericCiRule _ _ _ ▸ hkey) (by decide)
    · exact highestWastedBytesEvaluator_congr lib a b _ hfield
    · exact absurd (key_newGenericCiRule _ _ _ ▸ hkey) (by decide)
  · rcases hfield with ⟨hkey, -⟩ | ⟨hkey, -⟩ | ⟨-, hfield⟩
    · exact absurd (key_newGenericCiRule _ _ _ ▸ hkey) (by decide)
    · exact absurd (key_newGenericCiRule _ _ _ ▸ hkey) (by decide)
    · exact highestUserWastedPercentEvaluator_congr lib a b _ hfield

/-- C16, evaluated: the `lowestEfficiency` rule of the sample configuration
returns the same result on the sample analysis and on an analysis with the same
efficiency, no wasted bytes and another wasted-user-percent. -/
theorem evaluate_depends_on_one_field_witness :
    (newGenericCiRule "lowestEfficiency" (sampleConfig "rules.lowestEfficiency")
        (lowestEfficiencyEvaluator sampleLibrary)).Evaluate (some sampleAnalysis) =
      (newGenericCiRule "lowestEfficiency" (sampleConfig "rules.lowestEfficiency")
        (lowestEfficiencyEvaluator sampleLibrary)).Evaluate
        (some { Efficiency := float0_95, WastedBytes := 0, WastedUserPercent := float20 }) :=
  evaluate_depends_on_one_field sampleLibrary sampleConfig _
    ((mem_loadCiRules sampleLibrary sampleConfig _).2 (Or.inl rfl)) sampleAnalysis
    { Efficiency := float0_95, WastedBytes := 0, WastedUserPercent := float20 }
    (Or.inl ⟨rfl, rfl⟩)

/-! ## Monotonicity of the byte rule -/

/-- C17. Monotonicity of the `highestWastedBytes` rule: when the rule returns
Passed with a threshold that parses to `W` on an analysis, then with every
threshold that parses to some `W2 ≥ W` it returns Passed on every analysis that
wastes no more bytes. -/
theorem highestWastedBytes_monotone (lib : Library) (GetString1 GetString2 : String → String) :
    ∀ rule1 ∈ loadCiRules lib GetString1, ∀ rule2 ∈ loadCiRules lib GetString2,
      rule1.Key = "highestWastedBytes" → rule2.Key = "highestWastedBytes" →
      ∀ (W1 W2 : Nat), lib.ParseBytes rule1.Configuration = .ok W1 →
        lib.ParseBytes rule2.Configuration = .ok W2 → W1 ≤ W2 →
      ∀ a1 a2 : AnalysisResult, a2.WastedBytes ≤ a1.WastedBytes →
        (∃ message, rule1.Evaluate (some a1) = some (RulePassed, message)) →
        rule2.Evaluate (some a2) = some (RulePassed, "") := by
  intro rule1 hmem1 rule2 hmem2 hkey1 hkey2 W1 W2 hparse1 hparse2 hW a1 a2 hM hpass
  rcases (mem_loadCiRules lib GetString1 rule1).1 hmem1 with h | h | h <;> subst h
  · exact absurd (key_newGenericCiRule _ _ _ ▸ hkey1) (by decide)
  · rcases (mem_loadCiRules lib GetString2 rule2).1 hmem2 with h | h | h <;> subst h
    · exact absurd (key_newGenericCiRule _ _ _ ▸ hkey2) (by decide)
    · have hle : ¬ a1.WastedBytes > W1 := by
        intro hgt
        obtain ⟨message, hpass⟩ := hpass
        have hfail : (newGenericCiRule "highestWastedBytes"
            (GetString1 "rules.highestWastedBytes")
            (highestWastedBytesEvaluator lib)).Evaluate (some a1) = some (RuleFailed, _) :=
          highestWastedBytesEvaluator_fail lib a1 _ W1 hparse1 hgt
        rw [hpass] at hfail
        simp only [Option.some.injEq, Prod.mk.injEq] at hfail
        exact ruleFailed_ne_rulePassed hfail.1.symm
      exact highestWastedBytesEvaluator_pass lib a2 _ W2 hparse2 (by omega)
    · exact absurd (key_newGenericCiRule _ _ _ ▸ hkey2) (by decide)
  · exact absurd (key_newGenericCiRule _ _ _ ▸ hkey1) (by decide)

/-- C17, evaluated: the byte rule with the threshold `10MB` passes an analysis
with exactly 10 000 000 wasted bytes, hence also one with 5 242 880. -/
theorem highestWastedBytes_monotone_witness :
    (newGenericCiRule "highestWastedBytes" (sampleConfig "rules.highestWastedBytes")
        (highestWastedBytesEvaluator sampleLibrary)).Evaluate
        (some { sampleAnalysis with WastedBytes := 10000000 }) = some (RulePassed, "") ∧
    (newGenericCiRule "highestWastedBytes" (bytesOnlyConfig "rules.highestWastedBytes")
        (highestWastedBytesEvaluator sampleLibrary)).Evaluate
        (some { sampleAnalysis with WastedBytes := 5242880 }) = some (RulePassed, "") :=
  have hpass : (newGenericCiRule "highestWastedBytes"
      (sampleConfig "rules.highestWastedBytes")
      (highestWastedBytesEvaluator sampleLibrary)).Evaluate
      (some { sampleAnalysis with WastedBytes := 10000000 }) = some (RulePassed, "") :=
    highestWastedBytesEvaluator_pass sampleLibrary
      { sampleAnalysis with WastedBytes := 10000000 }
      (sampleConfig "rules.highestWastedBytes") 10000000 rfl (by decide)
  ⟨hpass,
    highestWastedBytes_monotone sampleLibrary sampleConfig bytesOnlyConfig _
      ((mem_loadCiRules sampleLibrary sampleConfig _).2 (Or.inr (Or.inl rfl))) _
      ((mem_loadCiRules sampleLibrary bytesOnlyConfig _).2 (Or.inr (Or.inl rfl)))
      rfl rfl 10000000 10000000 rfl rfl (Nat.le_refl _)
      { sampleAnalysis with WastedBytes := 10000000 }
      { sampleAnalysis with WastedBytes := 5242880 } (by decide) ⟨"", hpass⟩⟩

/-! ## NaN thresholds -/

theorem Float64.lt_nan_left (x y : Float64) (h : x.isNaN = true) : Float64.lt x y = false := by
  simp [Float64.lt, h]

theorem Float64.gt_nan_left (x y : Float64) (h : x.isNaN = true) : Float64.gt x y = false := by
  simp [Float64.gt, Float64.lt, h]

/-- C18. For the two floating-point rules of the catalog: when the float parser
accepts the configuration value of the rule and returns NaN, `Evaluate` returns
Passed with the empty message on every analysis result; such a value does not
take the fail-closed path. -/
theorem evaluate_nan_threshold_passes (lib : Library) (GetString : String → String) :
    ∀ rule ∈ loadCiRules lib GetString,
      (rule.Key = "lowestEfficiency" ∨ rule.Key = "highestUserWastedPercent") →
      ∀ (T : Float64), lib.ParseFloat rule.Configuration = .ok T → T.isNaN = true →
      ∀ analysis : AnalysisResult, rule.Evaluate (some analysis) = some (RulePassed, "") := by
  intro rule hmem hkey T hparse hnan analysis
  rcases (mem_loadCiRules lib GetString rule).1 hmem with h | h | h <;> subst h
  · exact lowestEfficiencyEvaluator_pass lib analysis _ T hparse
      (Float64.gt_nan_left T _ hnan)
  · rcases hkey with hkey | hkey
    · exact absurd (key_newGenericCiRule _ _ _ ▸ hkey) (by decide)
    · exact absurd (key_newGenericCiRule _ _ _ ▸ hkey) (by decide)
  · exact highestUserWastedPercentEvaluator_pass lib analysis _ T hparse
      (Float64.lt_nan_left T _ hnan)

/-- C18, evaluated: with the threshold `NaN` the two float rules pass the sample
analysis, and also an analysis whose efficiency is the lowest finite value
(`-math.MaxFloat64`). -/
theorem evaluate_nan_threshold_passes_witness :
    sampleLibrary.ParseFloat (nanConfig "rules.lowestEfficiency") = .ok floatNaN ∧
    floatNaN.isNaN = true ∧
    (newGenericCiRule "lowestEfficiency" (nanConfig "rules.lowestEfficiency")
        (lowestEfficiencyEvaluator sampleLibrary)).Evaluate
        (some { sampleAnalysis with Efficiency := ⟨true, 2046, 4503599627370495⟩ }) =
      some (RulePassed, "") ∧
    (newGenericCiRule "highestUserWastedPercent" (nanConfig "rules.highestUserWastedPercent")
        (highestUserWastedPercentEvaluator sampleLibrary)).Evaluate (some sampleAnalysis) =
      some (RulePassed, "") :=
  ⟨rfl, by decide,
    evaluate_nan_threshold_passes sampleLibrary nanConfig _
      ((mem_loadCiRules sampleLibrary nanConfig _).2 (Or.inl rfl)) (Or.inl rfl)
      floatNaN rfl (by decide) _,
    evaluate_nan_threshold_passes sampleLibrary nanConfig _
      ((mem_loadCiRules sampleLibrary nanConfig _).2 (Or.inr (Or.inr rfl))) (Or.inr rfl)
      floatNaN rfl (by decide) sampleAnalysis⟩

end CiRules
